import Mathlib

/-!
Shallow embedding of src/add_newsarticle_to_project.py.

The script edits an Xcode manifest (project.pbxproj) held in memory as a
string: it generates two 24-character identifiers per hardcoded file name,
splices PBXBuildFile and PBXFileReference entries in front of two literal
end-of-section markers, appends file-reference lines to the first
children-block found by the regex children = \(\s*([^)]*)\s*\); and appends
build-file lines into the first files-block found by the regex
(files = \(\s*)(.*?)(\s*\);.*?/\* Sources \*/), then writes the buffer back
and prints a confirmation.

Text is modelled as List Char.  Each Python operation (str.find, slicing,
str.rstrip, the two regular expressions, dict construction in the setup
loop, uuid generation) is translated below; comments cite the source lines.
-/

set_option maxRecDepth 1000000

abbrev Text := List Char

def str (s : String) : Text := s.data

/-- Characters matched by Python's regex class \s and stripped by
str.rstrip(), restricted to the ASCII range (the manifest and all inserted
text are ASCII). -/
def isPySpace (c : Char) : Bool :=
  c = ' ' || c = '\t' || c = '\n' || c = '\x0d' || c = '\x0b' || c = '\x0c'

/-- Python str.rstrip(): remove trailing whitespace. -/
def rstripPy (t : Text) : Text := (t.reverse.dropWhile isPySpace).reverse

/-- Python str.find scanning helper: first index at or after i where the
needle occurs; none when absent (Python returns -1). -/
def findSubAux (n : Text) : Text → Nat → Option Nat
  | h, i =>
    if n.isPrefixOf h then some i
    else
      match h with
      | [] => none
      | _ :: t => findSubAux n t (i + 1)

/-- Python content.find(needle): index of the first occurrence. -/
def findSub (n h : Text) : Option Nat := findSubAux n h 0

def hasSub (n h : Text) : Bool := (findSub n h).isSome

/-- Number of positions of h at which n occurs (an executable occurrence
count used to state the "exactly one new entry" properties). -/
def countSub (n h : Text) : Nat :=
  (if n.isPrefixOf h then 1 else 0) +
    match h with
    | [] => 0
    | _ :: t => countSub n t

/-! ### generate_uuid (source lines 6-8)

Python: str(uuid.uuid4()).replace('-', '').upper()[:24].
uuid.uuid4() draws a random 128-bit value, forces the version nibble to 4
and the variant nibble to 8..b, and prints 32 lowercase hex digits in
8-4-4-4-12 groups separated by hyphens.  The randomness source is modelled
by a Nat seed. -/

def hexLower (n : Nat) : Char :=
  if n < 10 then Char.ofNat (48 + n) else Char.ofNat (87 + n)

/-- Nibble i (big-endian, 0-based, 32 nibbles) of a 128-bit value. -/
def nib (v i : Nat) : Nat := v / 16 ^ (31 - i) % 16

/-- The 32 hex digits of str(uuid.uuid4()) for seed r: random digits except
the forced version digit (index 12 is 4) and variant digit (index 16 is
8, 9, a or b). -/
def uuid4digits (r : Nat) : Text :=
  (List.range 32).map fun i =>
    if i = 12 then '4'
    else if i = 16 then hexLower (8 + nib (r % 2 ^ 128) i % 4)
    else hexLower (nib (r % 2 ^ 128) i)

/-- str(uuid.uuid4()): the 36-character hyphenated form. -/
def uuid4str (r : Nat) : Text :=
  let d := uuid4digits r
  d.take 8 ++ str "-" ++ (d.drop 8).take 4 ++ str "-" ++ (d.drop 12).take 4
    ++ str "-" ++ (d.drop 16).take 4 ++ str "-" ++ d.drop 20

/-- Source lines 6-8: def generate_uuid():
return str(uuid.uuid4()).replace('-', '').upper()[:24]. -/
def generate_uuid (r : Nat) : Text :=
  (((uuid4str r).filter (fun c => c ≠ '-')).map Char.toUpper).take 24

/-! ### add_newsarticle_files (source lines 10-100) -/

/-- Source lines 14-17. -/
def files_to_add : List Text :=
  [str "NewsArticle.swift", str "NewsArticle+CoreDataProperties.swift"]

/-- Source lines 24-29: the loop filling the file_refs and build_files
dicts, calling generate_uuid twice per file name, in order
file_refs[name] first, build_files[name] second.  The randomness source is
a list of seeds consumed one per call; the result pairs each name with
(fileRef id, buildFile id) and returns the unconsumed seeds. -/
def assignIds : List Text → List Nat → List (Text × Text × Text) × List Nat
  | [], supply => ([], supply)
  | n :: rest, supply =>
    let fr := generate_uuid (supply.headD 0)
    let s1 := supply.tail
    let bf := generate_uuid (s1.headD 0)
    let s2 := s1.tail
    let (acc, s3) := assignIds rest s2
    ((n, fr, bf) :: acc, s3)

/-- Source line 36: one PBXBuildFile entry.  An element e of the id
assignment is (name, fileRef id, buildFile id). -/
def buildFileEntry (e : Text × Text × Text) : Text :=
  str "\t\t" ++ e.2.2 ++ str " /* " ++ e.1
    ++ str " in Sources */ = \x7bisa = PBXBuildFile; fileRef = " ++ e.2.1
    ++ str " /* " ++ e.1 ++ str " */; \x7d;"

/-- Source line 49: one PBXFileReference entry. -/
def fileRefEntry (e : Text × Text × Text) : Text :=
  str "\t\t" ++ e.2.1 ++ str " /* " ++ e.1
    ++ str " */ = \x7bisa = PBXFileReference; lastKnownFileType = sourcecode.swift; path = "
    ++ e.1 ++ str "; sourceTree = \"<group>\"; \x7d;"

/-- Source line 70: one new children line. -/
def childLine (e : Text × Text × Text) : Text :=
  str "\t\t\t\t" ++ e.2.1 ++ str " /* " ++ e.1 ++ str " */,"

/-- Source line 87: one new sources line. -/
def sourceLine (e : Text × Text × Text) : Text :=
  str "\t\t\t\t" ++ e.2.2 ++ str " /* " ++ e.1 ++ str " in Sources */,"

/-- Python "\n".join. -/
def joinNL (l : List Text) : Text := List.intercalate (str "\n") l

/-- Source lines 31-42: find the marker /* End PBXBuildFile section */ and splice the
joined entries plus "\n\t\t" in front of it; if the marker is absent the
content is returned unchanged (content.find returns -1, the if is
skipped). -/
def insertBuildFiles (fs : List (Text × Text × Text)) (content : Text) : Text :=
  match findSub (str "/* End PBXBuildFile section */") content with
  | none => content
  | some i =>
    content.take i ++ joinNL (fs.map buildFileEntry) ++ str "\n\t\t"
      ++ content.drop i

/-- Source lines 44-55: same splice for /* End PBXFileReference section */. -/
def insertFileRefs (fs : List (Text × Text × Text)) (content : Text) : Text :=
  match findSub (str "/* End PBXFileReference section */") content with
  | none => content
  | some i =>
    content.take i ++ joinNL (fs.map fileRefEntry) ++ str "\n\t\t"
      ++ content.drop i

/-! ### The children regex (source lines 59-60)

re.finditer(r'children = \(\s*([^)]*)\s*\);', content, MULTILINE | DOTALL),
of which only matches[0] is used.  At a match position the literal
"children = (" is followed by \s* (greedy), then ([^)]*) (greedy), then \s*
and the literal ");".  Because [^)]* accepts every character except ')',
the ')' consumed by the final literal is necessarily the first ')' after
the opener, the character after it must be ';', the leading \s* keeps its
maximal run and the trailing \s* is empty; there is no other backtracking.
The first match of the scan is the first position where this succeeds.
childrenFind returns (match.start(1), match.end(1)). -/

/-- Completion of the children pattern against the text following the
opener "children = (": requires a first ')' immediately followed by ';';
returns (length of the leading whitespace run, index of that ')'),
i.e. the span of capture group 1 relative to the text after the opener. -/
def childrenTail (rest : Text) : Option (Nat × Nat) :=
  match findSub (str ")") rest with
  | none => none
  | some j =>
    if (rest.drop (j + 1)).take 1 = str ";" then
      some ((rest.takeWhile isPySpace).length, j)
    else none

def childrenFindAux : Text → Nat → Option (Nat × Nat)
  | [], _ => none
  | c :: t, i =>
    match
      (if (str "children = (").isPrefixOf (c :: t) then
        childrenTail ((c :: t).drop 12)
       else none) with
    | some (w, j) => some (i + 12 + w, i + 12 + j)
    | none => childrenFindAux t (i + 1)

/-- Position of capture group 1 of the first match of
children = \(\s*([^)]*)\s*\); in h, as (start, end) absolute indices. -/
def childrenFind (h : Text) : Option (Nat × Nat) := childrenFindAux h 0

/-- Source lines 57-75: splice into the first children block.  The captured
group is replaced by its rstrip, a ",\n", and the joined new lines; when
the regex has no match nothing happens. -/
def insertChildren (fs : List (Text × Text × Text)) (content : Text) : Text :=
  match childrenFind content with
  | none => content
  | some (s, e) =>
    let captured := (content.take e).drop s
    content.take s
      ++ (rstripPy captured ++ str ",\n" ++ joinNL (fs.map childLine))
      ++ content.drop e

/-! ### The sources regex (source lines 77-92)

re.search(r'(files = \(\s*)(.*?)(\s*\);.*?/\* Sources \*/)', content,
MULTILINE | DOTALL).  At a match position the literal "files = (" is
followed by \s* (greedy, group 1), the lazy (.*?) (group 2), then group 3:
\s* (greedy), the literal ");", a lazy .*? and the literal "/* Sources */".
Since the group-3 \s* run is stopped by its first non-whitespace character,
which must then start ");", the lazy group 2 ends at the first position
from which a (possibly empty) whitespace run reaches a ')' followed by ';'
with "/* Sources */" occurring somewhere later; equivalently the match
closes at the FIRST ");" after the opener (and after the group-1 run) that
has "/* Sources */" somewhere after it, and group 2 ends where the
whitespace run immediately preceding that ');' begins (clamped to the end
of the group-1 run).  sourcesFind returns (match.start(2), match.end(2)). -/

/-- Scan for the smallest index t of rest with rest[t] = ')', rest[t+1] =
';' and "/* Sources */" occurring at or after t + 2. -/
def srcScanAux : Text → Nat → Option Nat
  | [], _ => none
  | c :: t, i =>
    if c = ')' && (t.take 1 = str ";") && (findSub (str "/* Sources */") (t.drop 1)).isSome
    then some i
    else srcScanAux t (i + 1)

def sourcesFindAux : Text → Nat → Option (Nat × Nat)
  | h, i =>
    match
      (if (str "files = (").isPrefixOf h then
        let rest := h.drop 9
        let w := (rest.takeWhile isPySpace).length
        match srcScanAux rest 0 with
        | some t =>
          some (i + 9 + w,
            i + 9 + max w (t - ((rest.take t).reverse.takeWhile isPySpace).length))
        | none => none
      else none) with
    | some r => some r
    | none =>
      match h with
      | [] => none
      | _ :: tl => sourcesFindAux tl (i + 1)

/-- Position of capture group 2 of the first match of the sources regex in
h, as (start, end) absolute indices. -/
def sourcesFind (h : Text) : Option (Nat × Nat) := sourcesFindAux h 0

/-- Source lines 77-92: splice into the sources files block; the captured
group 2 is replaced by its rstrip, a ",\n" and the joined new lines. -/
def insertSources (fs : List (Text × Text × Text)) (content : Text) : Text :=
  match sourcesFind content with
  | none => content
  | some (s, e) =>
    let captured := (content.take e).drop s
    content.take s
      ++ (rstripPy captured ++ str ",\n" ++ joinNL (fs.map sourceLine))
      ++ content.drop e

/-- The four insertion passes in source order (lines 31-92), each feeding
the next. -/
def runSteps (fs : List (Text × Text × Text)) (content : Text) : Text :=
  insertSources fs (insertChildren fs (insertFileRefs fs (insertBuildFiles fs content)))

/-- Source lines 98-100: the confirmation printed to stdout after the
write succeeds — one header line and one line per target file name. -/
def printedLines : List Text :=
  str "Successfully added NewsArticle files to Xcode project:"
    :: files_to_add.map (fun n => str "  - " ++ n)

/-- Source lines 10-100: the whole procedure.  Given the file content read
at line 21 (read assumed to succeed) it produces the content written back
at line 96 together with the lines printed to stdout. -/
def add_newsarticle_files (supply : List Nat) (content : Text) : Text × List Text :=
  let fs := (assignIds files_to_add supply).1
  (runSteps fs content, printedLines)

/-! ## Basic facts about the identifier generator and the setup loop -/

/-- Character class [0-9A-F] from the spec's contract for generated ids. -/
def isHexUpper (c : Char) : Bool :=
  (('0' ≤ c) && (c ≤ '9')) || (('A' ≤ c) && (c ≤ 'F'))

theorem nib_lt (v i : Nat) : nib v i < 16 :=
  Nat.mod_lt _ (by norm_num)

theorem mem_uuid4digits (r : Nat) (c : Char) (h : c ∈ uuid4digits r) :
    ∃ k, k < 16 ∧ c = hexLower k := by
  unfold uuid4digits at h
  rcases List.mem_map.1 h with ⟨i, _, rfl⟩
  by_cases h12 : i = 12
  · exact ⟨4, by norm_num, by simp [h12]; rfl⟩
  · by_cases h16 : i = 16
    · refine ⟨8 + nib (r % 2 ^ 128) i % 4, ?_, by simp [h12, h16]⟩
      have := Nat.mod_lt (nib (r % 2 ^ 128) i) (show 0 < 4 by norm_num)
      omega
    · exact ⟨nib (r % 2 ^ 128) i, nib_lt _ _, by simp [h12, h16]⟩

theorem hexLower_ne_hyphen : ∀ k, k < 16 → hexLower k ≠ '-' := by decide

theorem hexLower_toUpper_hex : ∀ k, k < 16 → isHexUpper ((hexLower k).toUpper) = true := by
  decide

theorem uuid4digits_length (r : Nat) : (uuid4digits r).length = 32 := by
  simp [uuid4digits]

theorem filter_uuid4str (r : Nat) :
    (uuid4str r).filter (fun c => c ≠ '-') = uuid4digits r := by
  have hseg : ∀ t : Text, (∀ c ∈ t, c ∈ uuid4digits r) →
      t.filter (fun c => c ≠ '-') = t := by
    intro t ht
    refine List.filter_eq_self.2 fun a ha => ?_
    rcases mem_uuid4digits r a (ht a ha) with ⟨k, hk, rfl⟩
    simpa using hexLower_ne_hyphen k hk
  have htake : ∀ m n : Nat,
      (((uuid4digits r).drop m).take n).filter (fun c => c ≠ '-')
        = ((uuid4digits r).drop m).take n := by
    intro m n
    exact hseg _ fun c hc =>
      List.mem_of_mem_drop (List.mem_of_mem_take hc)
  have hdrop : ∀ m : Nat,
      ((uuid4digits r).drop m).filter (fun c => c ≠ '-')
        = (uuid4digits r).drop m := by
    intro m
    exact hseg _ fun c hc => List.mem_of_mem_drop hc
  have htake0 : ((uuid4digits r).take 8).filter (fun c => c ≠ '-')
      = (uuid4digits r).take 8 := by
    have := htake 0 8; simpa using this
  unfold uuid4str
  simp only [List.filter_append, htake, hdrop, htake0]
  have hyph : (str "-").filter (fun c => c ≠ '-') = [] := by decide
  simp only [hyph, List.append_nil, List.nil_append]
  set d := uuid4digits r with hd
  have e20 : (d.drop 16).take 4 ++ d.drop 20 = d.drop 16 := by
    have : (d.drop 16).drop 4 = d.drop 20 := by
      rw [List.drop_drop]
    rw [← this, List.take_append_drop]
  have e16 : (d.drop 12).take 4 ++ d.drop 16 = d.drop 12 := by
    have : (d.drop 12).drop 4 = d.drop 16 := by
      rw [List.drop_drop]
    rw [← this, List.take_append_drop]
  have e12 : (d.drop 8).take 4 ++ d.drop 12 = d.drop 8 := by
    have : (d.drop 8).drop 4 = d.drop 12 := by
      rw [List.drop_drop]
    rw [← this, List.take_append_drop]
  calc d.take 8 ++ ((d.drop 8).take 4 ++ ((d.drop 12).take 4 ++ ((d.drop 16).take 4 ++ d.drop 20)))
      = d.take 8 ++ ((d.drop 8).take 4 ++ ((d.drop 12).take 4 ++ d.drop 16)) := by rw [e20]
    _ = d.take 8 ++ ((d.drop 8).take 4 ++ d.drop 12) := by rw [e16]
    _ = d.take 8 ++ d.drop 8 := by rw [e12]
    _ = d := List.take_append_drop _ _

theorem generate_uuid_eq (r : Nat) :
    generate_uuid r = ((uuid4digits r).map Char.toUpper).take 24 := by
  unfold generate_uuid
  rw [filter_uuid4str]

theorem generate_uuid_length (r : Nat) : (generate_uuid r).length = 24 := by
  rw [generate_uuid_eq, List.length_take, List.length_map, uuid4digits_length]
  norm_num

theorem generate_uuid_hex (r : Nat) :
    ∀ c ∈ generate_uuid r, isHexUpper c = true := by
  intro c hc
  rw [generate_uuid_eq] at hc
  have hc' := List.mem_of_mem_take hc
  rcases List.mem_map.1 hc' with ⟨a, ha, rfl⟩
  rcases mem_uuid4digits r a ha with ⟨k, hk, rfl⟩
  exact hexLower_toUpper_hex k hk

theorem tail4_eq_drop4 (l : List Nat) : l.tail.tail.tail.tail = l.drop 4 := by
  have h1 : ∀ m : List Nat, m.tail = m.drop 1 := fun m => (List.drop_one m).symm
  rw [h1, h1, h1, h1, List.drop_drop, List.drop_drop, List.drop_drop]

/-- Claim C8: every call to the identifier generator returns a string of
exactly 24 characters drawn from [0-9A-F], and the setup loop calls the
generator once per (file, role) pair — exactly 4 times for the 2 hardcoded
file names (fileRef id before buildFile id for each file, consuming
exactly 4 seeds of the randomness source). -/
theorem claim_C8 :
    (∀ r : Nat, (generate_uuid r).length = 24 ∧
      ∀ c ∈ generate_uuid r, isHexUpper c = true)
    ∧ (∀ supply : List Nat,
        (assignIds files_to_add supply).1 =
          [(str "NewsArticle.swift",
              generate_uuid (supply.headD 0), generate_uuid (supply.tail.headD 0)),
           (str "NewsArticle+CoreDataProperties.swift",
              generate_uuid (supply.tail.tail.headD 0),
              generate_uuid (supply.tail.tail.tail.headD 0))]
        ∧ (assignIds files_to_add supply).2 = supply.drop 4) := by
  refine ⟨fun r => ⟨generate_uuid_length r, generate_uuid_hex r⟩, fun supply => ⟨rfl, ?_⟩⟩
  show supply.tail.tail.tail.tail = supply.drop 4
  exact tail4_eq_drop4 supply

/-- Claim C4: when the input text does not contain the literal marker
"/* End PBXBuildFile section */", the build-file insertion step raises no
error and returns the text unchanged (the step is silently skipped, no
PBXBuildFile entries are added). -/
theorem claim_C4 (fs : List (Text × Text × Text)) (content : Text)
    (h : findSub (str "/* End PBXBuildFile section */") content = none) :
    insertBuildFiles fs content = content := by
  unfold insertBuildFiles
  rw [h]

theorem claim_C4_witness :
    findSub (str "/* End PBXBuildFile section */") (str "no marker present") = none
    ∧ insertBuildFiles [] (str "no marker present") = str "no marker present" :=
  ⟨by rfl, claim_C4 [] (str "no marker present") (by rfl)⟩

/-- Claim C9: whenever the read and the write succeed (both always succeed
in this pure model of the buffer pipeline), the program emits exactly one
confirmation header line followed by one line per target file name,
independently of the content and of whether any insertion step modified
it, with no distinct return value. -/
theorem claim_C9 (supply : List Nat) (content : Text) :
    (add_newsarticle_files supply content).2 =
      [str "Successfully added NewsArticle files to Xcode project:",
       str "  - NewsArticle.swift",
       str "  - NewsArticle+CoreDataProperties.swift"] := rfl

/-! ## Named text fragments of the manifest grammar and of the insertions -/

def m1txt : Text := str "/* End PBXBuildFile section */"
def m2txt : Text := str "/* End PBXFileReference section */"
def chOpen : Text := str "children = ("
def flOpen : Text := str "files = ("
def closeSemi : Text := str ");"
def srcCmt : Text := str "/* Sources */"
def nlTT : Text := str "\n\t\t"
def commaNL : Text := str ",\n"

def bfBlock (fs : List (Text × Text × Text)) : Text := joinNL (fs.map buildFileEntry)
def frBlock (fs : List (Text × Text × Text)) : Text := joinNL (fs.map fileRefEntry)
def chBlock (fs : List (Text × Text × Text)) : Text := joinNL (fs.map childLine)
def srBlock (fs : List (Text × Text × Text)) : Text := joinNL (fs.map sourceLine)

/-- The id assignment produced for the two hardcoded file names with
abstract identifiers. -/
def twoFs (fr1 bf1 fr2 bf2 : Text) : List (Text × Text × Text) :=
  [(str "NewsArticle.swift", fr1, bf1),
   (str "NewsArticle+CoreDataProperties.swift", fr2, bf2)]

theorem assignIds_twoFs (supply : List Nat) :
    (assignIds files_to_add supply).1 =
      twoFs (generate_uuid (supply.headD 0)) (generate_uuid (supply.tail.headD 0))
        (generate_uuid (supply.tail.tail.headD 0))
        (generate_uuid (supply.tail.tail.tail.headD 0)) := rfl

theorem joinNL_two (a b : Text) : joinNL [a, b] = a ++ str "\n" ++ b := by
  simp [joinNL, List.intercalate]

/-! ## Splice characterizations of the four insertion steps

Each lemma evaluates one step under a hypothesis that pins where the
marker / regex match is located (as an equation on findSub, childrenFind
or sourcesFind), and rewrites the step into an explicit concatenation. -/

theorem insertBuildFiles_at (fs : List (Text × Text × Text)) (X Y : Text)
    (h : findSub m1txt (X ++ Y) = some X.length) :
    insertBuildFiles fs (X ++ Y) = X ++ bfBlock fs ++ nlTT ++ Y := by
  unfold insertBuildFiles
  rw [show str "/* End PBXBuildFile section */" = m1txt from rfl, h]
  show (X ++ Y).take X.length ++ joinNL (fs.map buildFileEntry) ++ str "\n\t\t"
      ++ (X ++ Y).drop X.length = X ++ bfBlock fs ++ nlTT ++ Y
  rw [List.take_left, List.drop_left]
  rfl

theorem insertFileRefs_at (fs : List (Text × Text × Text)) (X Y : Text)
    (h : findSub m2txt (X ++ Y) = some X.length) :
    insertFileRefs fs (X ++ Y) = X ++ frBlock fs ++ nlTT ++ Y := by
  unfold insertFileRefs
  rw [show str "/* End PBXFileReference section */" = m2txt from rfl, h]
  show (X ++ Y).take X.length ++ joinNL (fs.map fileRefEntry) ++ str "\n\t\t"
      ++ (X ++ Y).drop X.length = X ++ frBlock fs ++ nlTT ++ Y
  rw [List.take_left, List.drop_left]
  rfl

theorem insertChildren_at (fs : List (Text × Text × Text)) (X Z Y : Text)
    (h : childrenFind (X ++ Z ++ Y) = some (X.length, X.length + Z.length)) :
    insertChildren fs (X ++ Z ++ Y)
      = X ++ (rstripPy Z ++ commaNL ++ chBlock fs) ++ Y := by
  unfold insertChildren
  rw [h]
  have hXZ : X.length + Z.length = (X ++ Z).length := (List.length_append X Z).symm
  have htake : (X ++ Z ++ Y).take (X.length + Z.length) = X ++ Z := by
    rw [hXZ, List.take_left]
  have hdrop : (X ++ Z ++ Y).drop (X.length + Z.length) = Y := by
    rw [hXZ, List.drop_left]
  have htakeX : (X ++ Z ++ Y).take X.length = X := by
    rw [List.append_assoc, List.take_left]
  show (X ++ Z ++ Y).take X.length
      ++ (rstripPy (((X ++ Z ++ Y).take (X.length + Z.length)).drop X.length)
          ++ str ",\n" ++ joinNL (fs.map childLine))
      ++ (X ++ Z ++ Y).drop (X.length + Z.length)
      = X ++ (rstripPy Z ++ commaNL ++ chBlock fs) ++ Y
  rw [htake, hdrop, htakeX]
  rw [show (X ++ Z).drop X.length = Z from List.drop_left X Z]
  rfl

theorem insertSources_at (fs : List (Text × Text × Text)) (X Z Y : Text)
    (h : sourcesFind (X ++ Z ++ Y) = some (X.length, X.length + Z.length)) :
    insertSources fs (X ++ Z ++ Y)
      = X ++ (rstripPy Z ++ commaNL ++ srBlock fs) ++ Y := by
  unfold insertSources
  rw [h]
  have hXZ : X.length + Z.length = (X ++ Z).length := (List.length_append X Z).symm
  have htake : (X ++ Z ++ Y).take (X.length + Z.length) = X ++ Z := by
    rw [hXZ, List.take_left]
  have hdrop : (X ++ Z ++ Y).drop (X.length + Z.length) = Y := by
    rw [hXZ, List.drop_left]
  have htakeX : (X ++ Z ++ Y).take X.length = X := by
    rw [List.append_assoc, List.take_left]
  show (X ++ Z ++ Y).take X.length
      ++ (rstripPy (((X ++ Z ++ Y).take (X.length + Z.length)).drop X.length)
          ++ str ",\n" ++ joinNL (fs.map sourceLine))
      ++ (X ++ Z ++ Y).drop (X.length + Z.length)
      = X ++ (rstripPy Z ++ commaNL ++ srBlock fs) ++ Y
  rw [htake, hdrop, htakeX]
  rw [show (X ++ Z).drop X.length = Z from List.drop_left X Z]
  rfl

/-- Claim C7: the group-children inserter modifies exactly the first
children = ( ... ); block in document order.  On an input with two
children blocks whose first block carries the regex match, the new
file-reference lines are appended to the first block only and the second
block (and everything after the first block's close) is reproduced
verbatim. -/
theorem claim_C7 (fs : List (Text × Text × Text)) (P G1 Q G2 R : Text)
    (h : childrenFind (P ++ chOpen ++ G1 ++ closeSemi ++ Q ++ chOpen ++ G2 ++ closeSemi ++ R)
        = some ((P ++ chOpen ++ G1.takeWhile isPySpace).length,
                (P ++ chOpen).length + G1.length)) :
    insertChildren fs (P ++ chOpen ++ G1 ++ closeSemi ++ Q ++ chOpen ++ G2 ++ closeSemi ++ R)
      = P ++ chOpen ++ G1.takeWhile isPySpace
          ++ (rstripPy (G1.dropWhile isPySpace) ++ commaNL ++ chBlock fs)
          ++ closeSemi ++ Q ++ chOpen ++ G2 ++ closeSemi ++ R := by
  have hG : G1.takeWhile isPySpace ++ G1.dropWhile isPySpace = G1 :=
    List.takeWhile_append_dropWhile isPySpace G1
  set tw := G1.takeWhile isPySpace with htw
  set dw := G1.dropWhile isPySpace with hdw
  have hcontent : P ++ chOpen ++ G1 ++ closeSemi ++ Q ++ chOpen ++ G2 ++ closeSemi ++ R
      = (P ++ chOpen ++ tw) ++ dw
          ++ (closeSemi ++ (Q ++ (chOpen ++ (G2 ++ (closeSemi ++ R))))) := by
    rw [← hG]
    simp [List.append_assoc]
  have hlen2 : (P ++ chOpen).length + G1.length
      = (P ++ chOpen ++ tw).length + dw.length := by
    rw [← hG]
    simp [List.length_append]
    omega
  rw [hcontent, hlen2] at h
  have hmain := insertChildren_at fs (P ++ chOpen ++ tw) dw
    (closeSemi ++ (Q ++ (chOpen ++ (G2 ++ (closeSemi ++ R))))) h
  rw [hcontent, hmain]
  simp [List.append_assoc]

theorem claim_C7_witness :
    insertChildren (twoFs (str "F1") (str "B1") (str "F2") (str "B2"))
        (str "x " ++ chOpen ++ str " a," ++ closeSemi ++ str " mid "
          ++ chOpen ++ str "b" ++ closeSemi ++ str " end")
      = str "x " ++ chOpen ++ (str " a,").takeWhile isPySpace
          ++ (rstripPy ((str " a,").dropWhile isPySpace) ++ commaNL
              ++ chBlock (twoFs (str "F1") (str "B1") (str "F2") (str "B2")))
          ++ closeSemi ++ str " mid " ++ chOpen ++ str "b" ++ closeSemi ++ str " end" :=
  claim_C7 _ (str "x ") (str " a,") (str " mid ") (str "b") (str " end") (by decide)

/-! ## Decomposition lemmas for rstrip and whitespace runs -/

theorem rstripPy_decomp (x : Text) :
    rstripPy x ++ (x.reverse.takeWhile isPySpace).reverse = x := by
  unfold rstripPy
  rw [← List.reverse_append, List.takeWhile_append_dropWhile, List.reverse_reverse]

theorem drop_of_append_eq (u t x : Text) (h : u ++ t = x) : x.drop u.length = t := by
  subst h
  exact List.drop_left u t

theorem rstripPy_drop (x : Text) :
    x.drop (rstripPy x).length = (x.reverse.takeWhile isPySpace).reverse :=
  drop_of_append_eq _ _ _ (rstripPy_decomp x)

theorem trail_all_ws (x : Text) :
    ∀ c ∈ x.drop (rstripPy x).length, isPySpace c = true := by
  intro c hc
  rw [rstripPy_drop] at hc
  exact List.mem_takeWhile_imp (List.mem_reverse.1 hc)

theorem dropWhile_self (p : Char → Bool) (l : Text) :
    (l.dropWhile p).dropWhile p = l.dropWhile p := by
  induction l with
  | nil => rfl
  | cons c t ih =>
    by_cases hp : p c = true
    · simp [List.dropWhile_cons, hp, ih]
    · simp only [Bool.not_eq_true] at hp
      simp [List.dropWhile_cons, hp]

theorem rstripPy_idem (x : Text) : rstripPy (rstripPy x) = rstripPy x := by
  unfold rstripPy
  rw [List.reverse_reverse, dropWhile_self]

theorem rstripPy_append (W v : Text) (h : rstripPy v ≠ []) :
    rstripPy (W ++ v) = W ++ rstripPy v := by
  have hdw : v.reverse.dropWhile isPySpace ≠ [] := by
    intro hnil
    exact h (by unfold rstripPy; rw [hnil]; rfl)
  unfold rstripPy
  rw [List.reverse_append, List.dropWhile_append]
  have : (v.reverse.dropWhile isPySpace).isEmpty = false := by
    cases hc : v.reverse.dropWhile isPySpace with
    | nil => exact absurd hc hdw
    | cons a t => rfl
  rw [this]
  simp [List.reverse_append]

theorem takeWhile_ws_append (u w : Text) (hu : ∀ c ∈ u, isPySpace c = true)
    (hw : w.takeWhile isPySpace = []) :
    (u ++ w).takeWhile isPySpace = u := by
  rw [List.takeWhile_append]
  have h1 : u.takeWhile isPySpace = u := List.takeWhile_eq_self_iff.2 hu
  rw [h1, hw]
  simp

theorem dropWhile_ws_append (u w : Text) (hu : ∀ c ∈ u, isPySpace c = true)
    (hw : w.takeWhile isPySpace = []) :
    (u ++ w).dropWhile isPySpace = w := by
  rw [List.dropWhile_append]
  have h1 : u.dropWhile isPySpace = [] := List.dropWhile_eq_nil_iff.2 hu
  rw [h1]
  have h2 : w.dropWhile isPySpace = w := by
    conv_rhs => rw [← List.takeWhile_append_dropWhile isPySpace w]
    rw [hw]
    rfl
  simp [h2]

/-! ## Explicit forms of the four intermediate buffers on a structured
manifest

mkManifest lays out the four landmarks in the order they appear in a real
pbxproj: the PBXBuildFile end marker, the PBXFileReference end marker, a
children block, and a files block followed by the Sources comment.  The
pieces A-F, the children list G and the files list S are arbitrary. -/

def wsOf (t : Text) : Text := t.takeWhile isPySpace
def bodyOf (t : Text) : Text := t.dropWhile isPySpace
def coreOf (t : Text) : Text := rstripPy (bodyOf t)
def trailOf (t : Text) : Text := (bodyOf t).drop (coreOf t).length

theorem ws_body_core_trail (t : Text) :
    t = wsOf t ++ (coreOf t ++ trailOf t) := by
  have h1 : wsOf t ++ bodyOf t = t := List.takeWhile_append_dropWhile isPySpace t
  have h2 : coreOf t ++ trailOf t = bodyOf t := by
    unfold coreOf trailOf
    rw [show (coreOf t).length = (rstripPy (bodyOf t)).length from rfl, rstripPy_drop]
    exact rstripPy_decomp (bodyOf t)
  rw [h2, h1]

def mkManifest (A B C D E F G S : Text) : Text :=
  A ++ m1txt ++ B ++ m2txt ++ C ++ chOpen ++ G ++ closeSemi ++ D
    ++ flOpen ++ S ++ closeSemi ++ E ++ srcCmt ++ F

def c1ex (fs : List (Text × Text × Text)) (A B C D E F G S : Text) : Text :=
  A ++ bfBlock fs ++ nlTT ++ m1txt ++ B ++ m2txt ++ C ++ chOpen ++ G
    ++ closeSemi ++ D ++ flOpen ++ S ++ closeSemi ++ E ++ srcCmt ++ F

def pre2 (fs : List (Text × Text × Text)) (A B : Text) : Text :=
  A ++ bfBlock fs ++ nlTT ++ m1txt ++ B

def c2ex (fs : List (Text × Text × Text)) (A B C D E F G S : Text) : Text :=
  pre2 fs A B ++ frBlock fs ++ nlTT ++ m2txt ++ C ++ chOpen ++ G
    ++ closeSemi ++ D ++ flOpen ++ S ++ closeSemi ++ E ++ srcCmt ++ F

def pre3 (fs : List (Text × Text × Text)) (A B C G : Text) : Text :=
  pre2 fs A B ++ frBlock fs ++ nlTT ++ m2txt ++ C ++ chOpen ++ wsOf G

def c3ex (fs : List (Text × Text × Text)) (A B C D E F G S : Text) : Text :=
  pre3 fs A B C G ++ (coreOf G ++ commaNL ++ chBlock fs) ++ closeSemi ++ D
    ++ flOpen ++ S ++ closeSemi ++ E ++ srcCmt ++ F

def pre4 (fs : List (Text × Text × Text)) (A B C D G S : Text) : Text :=
  pre3 fs A B C G ++ (coreOf G ++ commaNL ++ chBlock fs) ++ closeSemi ++ D
    ++ flOpen ++ wsOf S

def c4ex (fs : List (Text × Text × Text)) (A B C D E F G S : Text) : Text :=
  pre4 fs A B C D G S ++ (coreOf S ++ commaNL ++ srBlock fs) ++ trailOf S
    ++ closeSemi ++ E ++ srcCmt ++ F

theorem step1_explicit (fs : List (Text × Text × Text)) (A B C D E F G S : Text)
    (h1 : findSub m1txt (mkManifest A B C D E F G S) = some A.length) :
    insertBuildFiles fs (mkManifest A B C D E F G S) = c1ex fs A B C D E F G S := by
  have hm : mkManifest A B C D E F G S
      = A ++ (m1txt ++ B ++ m2txt ++ C ++ chOpen ++ G ++ closeSemi ++ D
          ++ flOpen ++ S ++ closeSemi ++ E ++ srcCmt ++ F) := by
    unfold mkManifest
    simp [List.append_assoc]
  rw [hm] at h1 ⊢
  rw [insertBuildFiles_at fs _ _ h1]
  unfold c1ex
  simp [List.append_assoc]

theorem step2_explicit (fs : List (Text × Text × Text)) (A B C D E F G S : Text)
    (h2 : findSub m2txt (c1ex fs A B C D E F G S) = some (pre2 fs A B).length) :
    insertFileRefs fs (c1ex fs A B C D E F G S) = c2ex fs A B C D E F G S := by
  have hm : c1ex fs A B C D E F G S
      = pre2 fs A B ++ (m2txt ++ C ++ chOpen ++ G ++ closeSemi ++ D
          ++ flOpen ++ S ++ closeSemi ++ E ++ srcCmt ++ F) := by
    unfold c1ex pre2
    simp [List.append_assoc]
  rw [hm] at h2 ⊢
  rw [insertFileRefs_at fs _ _ h2]
  unfold c2ex pre2
  simp [List.append_assoc]

theorem step3_explicit (fs : List (Text × Text × Text)) (A B C D E F G S : Text)
    (h3 : childrenFind (c2ex fs A B C D E F G S)
        = some ((pre3 fs A B C G).length, (pre3 fs A B C G).length + (bodyOf G).length)) :
    insertChildren fs (c2ex fs A B C D E F G S) = c3ex fs A B C D E F G S := by
  have hm : c2ex fs A B C D E F G S
      = pre3 fs A B C G ++ bodyOf G ++ (closeSemi ++ D ++ flOpen ++ S
          ++ closeSemi ++ E ++ srcCmt ++ F) := by
    unfold c2ex pre3
    conv_lhs => rw [show G = wsOf G ++ bodyOf G from
      (List.takeWhile_append_dropWhile isPySpace G).symm]
    simp [List.append_assoc]
  rw [hm] at h3 ⊢
  rw [insertChildren_at fs _ _ _ h3]
  unfold c3ex pre3 coreOf
  simp [List.append_assoc]

theorem step4_explicit (fs : List (Text × Text × Text)) (A B C D E F G S : Text)
    (h4 : sourcesFind (c3ex fs A B C D E F G S)
        = some ((pre4 fs A B C D G S).length, (pre4 fs A B C D G S).length + (coreOf S).length)) :
    insertSources fs (c3ex fs A B C D E F G S) = c4ex fs A B C D E F G S := by
  have hm : c3ex fs A B C D E F G S
      = pre4 fs A B C D G S ++ coreOf S ++ (trailOf S ++ closeSemi ++ E
          ++ srcCmt ++ F) := by
    unfold c3ex pre4
    conv_lhs => rw [show S = wsOf S ++ (coreOf S ++ trailOf S) from ws_body_core_trail S]
    simp [List.append_assoc]
  rw [hm] at h4 ⊢
  rw [insertSources_at fs _ _ _ h4]
  unfold c4ex pre4
  rw [show rstripPy (coreOf S) = coreOf S from rstripPy_idem (bodyOf S)]
  simp [List.append_assoc]

/-- Explicit output of one whole run on a structured manifest, under
hypotheses pinning each marker / regex match at its designated landmark. -/
theorem runSteps_explicit (fs : List (Text × Text × Text)) (A B C D E F G S : Text)
    (h1 : findSub m1txt (mkManifest A B C D E F G S) = some A.length)
    (h2 : findSub m2txt (c1ex fs A B C D E F G S) = some (pre2 fs A B).length)
    (h3 : childrenFind (c2ex fs A B C D E F G S)
        = some ((pre3 fs A B C G).length, (pre3 fs A B C G).length + (bodyOf G).length))
    (h4 : sourcesFind (c3ex fs A B C D E F G S)
        = some ((pre4 fs A B C D G S).length, (pre4 fs A B C D G S).length + (coreOf S).length)) :
    runSteps fs (mkManifest A B C D E F G S) = c4ex fs A B C D E F G S := by
  unfold runSteps
  rw [step1_explicit fs A B C D E F G S h1, step2_explicit fs A B C D E F G S h2,
    step3_explicit fs A B C D E F G S h3, step4_explicit fs A B C D E F G S h4]

theorem takeWhile_nil_append (p : Char → Bool) (a rest : Text)
    (ha : a.takeWhile p = []) (hrest : rest.takeWhile p = []) :
    (a ++ rest).takeWhile p = [] := by
  cases a with
  | nil => simpa using hrest
  | cons c t =>
    have hc : p c = false := by
      by_cases h : p c = true
      · rw [List.takeWhile_cons, h] at ha
        exact absurd ha (by simp)
      · simpa using h
    simp [List.takeWhile_cons, hc]

/-- The canonical two-entry children list: a newline-and-tabs prelude, the
two entries a and b each followed by a comma, and trailing indentation
before the closing parenthesis. -/
def twoEntryList (a b : Text) : Text :=
  str "\n\t\t\t\t" ++ a ++ str ",\n\t\t\t\t" ++ b ++ str ",\n\t\t\t"

theorem twoEntryList_ws (a b : Text) (ha : a.takeWhile isPySpace = []) :
    wsOf (twoEntryList a b) = str "\n\t\t\t\t" := by
  unfold wsOf twoEntryList
  have hrest : (a ++ (str ",\n\t\t\t\t" ++ (b ++ str ",\n\t\t\t"))).takeWhile isPySpace = [] := by
    refine takeWhile_nil_append _ _ _ ha ?_
    rfl
  rw [show str "\n\t\t\t\t" ++ a ++ str ",\n\t\t\t\t" ++ b ++ str ",\n\t\t\t"
      = str "\n\t\t\t\t" ++ (a ++ (str ",\n\t\t\t\t" ++ (b ++ str ",\n\t\t\t"))) from by
    simp [List.append_assoc]]
  exact takeWhile_ws_append _ _ (by decide) hrest

theorem twoEntryList_body (a b : Text) (ha : a.takeWhile isPySpace = []) :
    bodyOf (twoEntryList a b) = a ++ (str ",\n\t\t\t\t" ++ (b ++ str ",\n\t\t\t")) := by
  unfold bodyOf twoEntryList
  have hrest : (a ++ (str ",\n\t\t\t\t" ++ (b ++ str ",\n\t\t\t"))).takeWhile isPySpace = [] := by
    refine takeWhile_nil_append _ _ _ ha ?_
    rfl
  rw [show str "\n\t\t\t\t" ++ a ++ str ",\n\t\t\t\t" ++ b ++ str ",\n\t\t\t"
      = str "\n\t\t\t\t" ++ (a ++ (str ",\n\t\t\t\t" ++ (b ++ str ",\n\t\t\t"))) from by
    simp [List.append_assoc]]
  exact dropWhile_ws_append _ _ (by decide) hrest

theorem twoEntryList_core (a b : Text) (ha : a.takeWhile isPySpace = []) :
    coreOf (twoEntryList a b) = a ++ str ",\n\t\t\t\t" ++ b ++ str "," := by
  unfold coreOf
  rw [twoEntryList_body a b ha]
  rw [show a ++ (str ",\n\t\t\t\t" ++ (b ++ str ",\n\t\t\t"))
      = (a ++ str ",\n\t\t\t\t" ++ b) ++ str ",\n\t\t\t" from by simp [List.append_assoc]]
  rw [rstripPy_append _ _ (by decide)]
  rw [show rstripPy (str ",\n\t\t\t") = str "," from by decide]

/-- Claim C2: on a minimal synthetic manifest carrying the four landmarks
and a two-entry children list in standard formatting, one run leaves the
original two entries (and their separators) in place and appends two new
trailing entries, first for NewsArticle.swift then for
NewsArticle+CoreDataProperties.swift, each terminated with a comma; the
insertion point carries the extra comma produced by the unconditional
",\n" splice after the rstripped list. -/
theorem claim_C2 (fr1 bf1 fr2 bf2 a b A B C D E F S : Text)
    (ha : a.takeWhile isPySpace = [])
    (h1 : findSub m1txt (mkManifest A B C D E F (twoEntryList a b) S) = some A.length)
    (h2 : findSub m2txt (c1ex (twoFs fr1 bf1 fr2 bf2) A B C D E F (twoEntryList a b) S)
        = some (pre2 (twoFs fr1 bf1 fr2 bf2) A B).length)
    (h3 : childrenFind (c2ex (twoFs fr1 bf1 fr2 bf2) A B C D E F (twoEntryList a b) S)
        = some ((pre3 (twoFs fr1 bf1 fr2 bf2) A B C (twoEntryList a b)).length,
            (pre3 (twoFs fr1 bf1 fr2 bf2) A B C (twoEntryList a b)).length
              + (bodyOf (twoEntryList a b)).length))
    (h4 : sourcesFind (c3ex (twoFs fr1 bf1 fr2 bf2) A B C D E F (twoEntryList a b) S)
        = some ((pre4 (twoFs fr1 bf1 fr2 bf2) A B C D (twoEntryList a b) S).length,
            (pre4 (twoFs fr1 bf1 fr2 bf2) A B C D (twoEntryList a b) S).length
              + (coreOf S).length)) :
    runSteps (twoFs fr1 bf1 fr2 bf2) (mkManifest A B C D E F (twoEntryList a b) S)
      = A ++ bfBlock (twoFs fr1 bf1 fr2 bf2) ++ nlTT ++ m1txt ++ B
          ++ frBlock (twoFs fr1 bf1 fr2 bf2) ++ nlTT ++ m2txt ++ C
          ++ chOpen ++ str "\n\t\t\t\t"
          ++ ((a ++ str ",\n\t\t\t\t" ++ b ++ str ",") ++ commaNL
              ++ (str "\t\t\t\t" ++ fr1 ++ str " /* NewsArticle.swift */,"
                  ++ str "\n" ++ str "\t\t\t\t" ++ fr2
                  ++ str " /* NewsArticle+CoreDataProperties.swift */,"))
          ++ closeSemi ++ D ++ flOpen ++ wsOf S
          ++ (coreOf S ++ commaNL ++ srBlock (twoFs fr1 bf1 fr2 bf2))
          ++ trailOf S ++ closeSemi ++ E ++ srcCmt ++ F := by
  have hrun := runSteps_explicit (twoFs fr1 bf1 fr2 bf2) A B C D E F (twoEntryList a b) S
    h1 h2 h3 h4
  rw [hrun]
  unfold c4ex pre4 pre3 pre2
  rw [twoEntryList_ws a b ha, twoEntryList_core a b ha]
  have hch : chBlock (twoFs fr1 bf1 fr2 bf2)
      = str "\t\t\t\t" ++ fr1 ++ str " /* NewsArticle.swift */," ++ str "\n"
        ++ str "\t\t\t\t" ++ fr2 ++ str " /* NewsArticle+CoreDataProperties.swift */," := by
    show joinNL [childLine (str "NewsArticle.swift", fr1, bf1),
      childLine (str "NewsArticle+CoreDataProperties.swift", fr2, bf2)] = _
    rw [joinNL_two]
    unfold childLine
    have e1 : str " /* " ++ str "NewsArticle.swift" ++ str " */,"
        = str " /* NewsArticle.swift */," := by decide
    have e2 : str " /* " ++ str "NewsArticle+CoreDataProperties.swift" ++ str " */,"
        = str " /* NewsArticle+CoreDataProperties.swift */," := by decide
    simp only [List.append_assoc]
    rw [← e1, ← e2]
    simp only [List.append_assoc]
  rw [hch]

/-! Concrete pieces of a minimal synthetic manifest, used by the witnesses. -/

def exA : Text := str "// !$*UTF8*$!\n/* Begin PBXBuildFile section */\n\t\tAA11 /* a.swift in Sources */ = x;\n\t\t"
def exB : Text := str "\n/* Begin PBXFileReference section */\n\t\tBB22 /* a.swift */ = y;\n\t\t"
def exC : Text := str "\n\t\tGG33 = \x7b\n\t\t\t"
def exD : Text := str "\n\t\t\x7d;\n\t\tSS66 = \x7b\n\t\t\t"
def exE : Text := str "\n\t\t\x7d; "
def exF : Text := str "\n"
def exS : Text := str "\n\t\t\t\tEE77 /* a.swift in Sources */,\n\t\t\t"
def exa : Text := str "CC44 /* a.swift */"
def exb : Text := str "DD55 /* b.swift */"
def exFs : List (Text × Text × Text) :=
  twoFs (str "FR1A") (str "BF1A") (str "FR2A") (str "BF2A")

set_option maxRecDepth 100000 in
theorem claim_C2_witness :
    runSteps exFs (mkManifest exA exB exC exD exE exF (twoEntryList exa exb) exS)
      = exA ++ bfBlock exFs ++ nlTT ++ m1txt ++ exB
          ++ frBlock exFs ++ nlTT ++ m2txt ++ exC
          ++ chOpen ++ str "\n\t\t\t\t"
          ++ ((exa ++ str ",\n\t\t\t\t" ++ exb ++ str ",") ++ commaNL
              ++ (str "\t\t\t\t" ++ str "FR1A" ++ str " /* NewsArticle.swift */,"
                  ++ str "\n" ++ str "\t\t\t\t" ++ str "FR2A"
                  ++ str " /* NewsArticle+CoreDataProperties.swift */,"))
          ++ closeSemi ++ exD ++ flOpen ++ wsOf exS
          ++ (coreOf exS ++ commaNL ++ srBlock exFs)
          ++ trailOf exS ++ closeSemi ++ exE ++ srcCmt ++ exF :=
  claim_C2 (str "FR1A") (str "BF1A") (str "FR2A") (str "BF2A") exa exb
    exA exB exC exD exE exF exS (by decide) (by decide) (by decide) (by decide) (by decide)

/-! ## Characterization of the sources scan (nearest eligible ");") -/

/-- Position t of rest closes the sources pattern: rest carries ");" at t
and the literal /* Sources */ somewhere at or after t + 2. -/
def srcHitB (rest : Text) (t : Nat) : Bool :=
  ((rest.drop t).take 2 = str ");") && (findSub srcCmt (rest.drop (t + 2))).isSome

theorem srcHitB_succ (c : Char) (tl : Text) (u : Nat) :
    srcHitB (c :: tl) (u + 1) = srcHitB tl u := by
  unfold srcHitB
  have h1 : (c :: tl).drop (u + 1) = tl.drop u := rfl
  have h2 : (c :: tl).drop (u + 1 + 2) = tl.drop (u + 2) := rfl
  rw [h1, h2]

theorem srcHitB_zero (c : Char) (tl : Text) :
    srcHitB (c :: tl) 0
      = ((c = ')') && ((tl.take 1 : Text) = str ";")
          && (findSub (str "/* Sources */") (tl.drop 1)).isSome) := by
  unfold srcHitB
  have h1 : (c :: tl).drop 0 = c :: tl := rfl
  have h2 : (c :: tl).drop (0 + 2) = tl.drop 1 := rfl
  have h3 : (c :: tl).take 2 = c :: tl.take 1 := rfl
  have h4 : srcCmt = str "/* Sources */" := rfl
  rw [h1, h2, h3, h4]
  congr 1
  rw [show (decide (c = ')') && decide ((tl.take 1 : Text) = str ";"))
      = decide (c = ')' ∧ (tl.take 1 : Text) = str ";") from (Bool.decide_and _ _).symm]
  rw [decide_eq_decide]
  rw [show str ");" = ')' :: str ";" from rfl]
  simp [List.cons.injEq]

theorem srcScanAux_min : ∀ (l : Text) (i r : Nat), srcScanAux l i = some r →
    i ≤ r ∧ srcHitB l (r - i) = true ∧ ∀ u, u < r - i → srcHitB l u = false := by
  intro l
  induction l with
  | nil =>
    intro i r h
    simp [srcScanAux] at h
  | cons c tl ih =>
    intro i r h
    unfold srcScanAux at h
    split at h
    · rename_i hg
      have hr : r = i := by
        cases h
        rfl
      subst hr
      refine ⟨Nat.le_refl _, ?_, ?_⟩
      · rw [Nat.sub_self, srcHitB_zero]
        exact hg
      · intro u hu
        omega
    · rename_i hg
      have hgf : ((c = ')') && ((tl.take 1 : Text) = str ";")
          && (findSub (str "/* Sources */") (tl.drop 1)).isSome) = false := by
        simpa using hg
      obtain ⟨hle, hhit, hmin⟩ := ih (i + 1) r h
      have hri : 1 ≤ r - i := by omega
      refine ⟨by omega, ?_, ?_⟩
      · have : r - i = (r - (i + 1)) + 1 := by omega
        rw [this, srcHitB_succ]
        exact hhit
      · intro u hu
        cases u with
        | zero =>
          rw [srcHitB_zero]
          exact hgf
        | succ v =>
          rw [srcHitB_succ]
          exact hmin v (by omega)

/-- The sources-list splice on a canonically structured files block. -/
theorem insertSources_canonical (fs : List (Text × Text × Text)) (P S E F : Text)
    (h : sourcesFind (P ++ flOpen ++ S ++ closeSemi ++ E ++ srcCmt ++ F)
        = some ((P ++ flOpen ++ wsOf S).length,
            (P ++ flOpen ++ wsOf S).length + (coreOf S).length)) :
    insertSources fs (P ++ flOpen ++ S ++ closeSemi ++ E ++ srcCmt ++ F)
      = P ++ flOpen ++ wsOf S ++ (coreOf S ++ commaNL ++ srBlock fs)
          ++ trailOf S ++ closeSemi ++ E ++ srcCmt ++ F := by
  have hcontent : P ++ flOpen ++ S ++ closeSemi ++ E ++ srcCmt ++ F
      = (P ++ flOpen ++ wsOf S) ++ coreOf S
          ++ (trailOf S ++ (closeSemi ++ (E ++ (srcCmt ++ F)))) := by
    conv_lhs => rw [show S = wsOf S ++ (coreOf S ++ trailOf S) from ws_body_core_trail S]
    simp [List.append_assoc]
  rw [hcontent] at h ⊢
  rw [insertSources_at fs _ _ _ h]
  rw [show rstripPy (coreOf S) = coreOf S from rstripPy_idem (bodyOf S)]
  simp [List.append_assoc]

/-- The children-list splice on a canonically structured children block. -/
theorem insertChildren_canonical (fs : List (Text × Text × Text)) (P G Q : Text)
    (h : childrenFind (P ++ chOpen ++ G ++ closeSemi ++ Q)
        = some ((P ++ chOpen ++ wsOf G).length, (P ++ chOpen).length + G.length)) :
    insertChildren fs (P ++ chOpen ++ G ++ closeSemi ++ Q)
      = P ++ chOpen ++ wsOf G ++ (coreOf G ++ commaNL ++ chBlock fs)
          ++ closeSemi ++ Q := by
  have hG : wsOf G ++ bodyOf G = G := List.takeWhile_append_dropWhile isPySpace G
  have hcontent : P ++ chOpen ++ G ++ closeSemi ++ Q
      = (P ++ chOpen ++ wsOf G) ++ bodyOf G ++ (closeSemi ++ Q) := by
    conv_lhs => rw [show G = wsOf G ++ bodyOf G from hG.symm]
    simp [List.append_assoc]
  have hGlen : (wsOf G).length + (bodyOf G).length = G.length := by
    have := congrArg List.length hG
    simpa [List.length_append] using this
  have hlen : (P ++ chOpen).length + G.length
      = (P ++ chOpen ++ wsOf G).length + (bodyOf G).length := by
    simp [List.length_append]
    omega
  rw [hcontent] at h ⊢
  rw [hlen] at h
  rw [insertChildren_at fs _ _ _ h]
  simp [List.append_assoc]
  rfl

/-- Claim C6: the sources build-phase inserter (i) appends, at the end of
the captured files list, one line per target file of the form
buildFileId /* fileName in Sources */, in file order, when the regex
matches the canonical files = ( ... ); region followed by /* Sources */;
(ii) is silently skipped (returns the text unchanged, no error) when the
regex has no match anywhere; and (iii) its scan closes the region at the
NEAREST ");" (smallest index) that is followed somewhere later by the
literal /* Sources */. -/
theorem claim_C6 :
    (∀ (fs : List (Text × Text × Text)) (content : Text),
      sourcesFind content = none → insertSources fs content = content)
    ∧ (∀ fr1 bf1 fr2 bf2 P S E F : Text,
        sourcesFind (P ++ flOpen ++ S ++ closeSemi ++ E ++ srcCmt ++ F)
            = some ((P ++ flOpen ++ wsOf S).length,
                (P ++ flOpen ++ wsOf S).length + (coreOf S).length)
        → insertSources (twoFs fr1 bf1 fr2 bf2)
              (P ++ flOpen ++ S ++ closeSemi ++ E ++ srcCmt ++ F)
            = P ++ flOpen ++ wsOf S
              ++ (coreOf S ++ commaNL
                  ++ (str "\t\t\t\t" ++ bf1 ++ str " /* NewsArticle.swift in Sources */,"
                      ++ str "\n" ++ str "\t\t\t\t" ++ bf2
                      ++ str " /* NewsArticle+CoreDataProperties.swift in Sources */,"))
              ++ trailOf S ++ closeSemi ++ E ++ srcCmt ++ F)
    ∧ (∀ (l : Text) (r : Nat), srcScanAux l 0 = some r →
        srcHitB l r = true ∧ ∀ u, u < r → srcHitB l u = false) := by
  refine ⟨?_, ?_, ?_⟩
  · intro fs content h
    unfold insertSources
    rw [h]
  · intro fr1 bf1 fr2 bf2 P S E F h
    rw [insertSources_canonical (twoFs fr1 bf1 fr2 bf2) P S E F h]
    have hsr : srBlock (twoFs fr1 bf1 fr2 bf2)
        = str "\t\t\t\t" ++ bf1 ++ str " /* NewsArticle.swift in Sources */," ++ str "\n"
          ++ str "\t\t\t\t" ++ bf2
          ++ str " /* NewsArticle+CoreDataProperties.swift in Sources */," := by
      show joinNL [sourceLine (str "NewsArticle.swift", fr1, bf1),
        sourceLine (str "NewsArticle+CoreDataProperties.swift", fr2, bf2)] = _
      rw [joinNL_two]
      unfold sourceLine
      have e1 : str " /* " ++ str "NewsArticle.swift" ++ str " in Sources */,"
          = str " /* NewsArticle.swift in Sources */," := by decide
      have e2 : str " /* " ++ str "NewsArticle+CoreDataProperties.swift" ++ str " in Sources */,"
          = str " /* NewsArticle+CoreDataProperties.swift in Sources */," := by decide
      simp only [List.append_assoc]
      rw [← e1, ← e2]
      simp only [List.append_assoc]
    rw [hsr]
  · intro l r h
    have := srcScanAux_min l 0 r h
    simpa using this

set_option maxRecDepth 100000 in
theorem claim_C6_witness :
    (insertSources exFs (str "no sources block at all") = str "no sources block at all")
    ∧ (insertSources exFs (str "pre " ++ flOpen ++ exS ++ closeSemi ++ exE ++ srcCmt ++ exF)
        = str "pre " ++ flOpen ++ wsOf exS
            ++ (coreOf exS ++ commaNL
                ++ (str "\t\t\t\t" ++ str "BF1A" ++ str " /* NewsArticle.swift in Sources */,"
                    ++ str "\n" ++ str "\t\t\t\t" ++ str "BF2A"
                    ++ str " /* NewsArticle+CoreDataProperties.swift in Sources */,"))
            ++ trailOf exS ++ closeSemi ++ exE ++ srcCmt ++ exF)
    ∧ (srcHitB (str "a)x ); /* Sources */") 4 = true
        ∧ ∀ u, u < 4 → srcHitB (str "a)x ); /* Sources */") u = false) := by
  refine ⟨?_, ?_, ?_⟩
  · exact claim_C6.1 exFs _ (by decide)
  · exact claim_C6.2.1 (str "FR1A") (str "BF1A") (str "FR2A") (str "BF2A")
      (str "pre ") exS exE exF (by decide)
  · exact claim_C6.2.2 (str "a)x ); /* Sources */") 4 (by decide)

/-- Claim C10: the group-children step appends a comma unconditionally
after the rstripped captured region; when the captured region already ends
with a comma after stripping trailing whitespace, the output carries two
consecutive commas at the splice point, and when the stripped region is
empty, the comma lands directly after the opening parenthesis and the
leading whitespace run. -/
theorem claim_C10 (fs : List (Text × Text × Text)) (P G Q : Text)
    (hfind : childrenFind (P ++ chOpen ++ G ++ closeSemi ++ Q)
        = some ((P ++ chOpen ++ wsOf G).length, (P ++ chOpen).length + G.length)) :
    (∀ k : Text, coreOf G = k ++ [','] →
      insertChildren fs (P ++ chOpen ++ G ++ closeSemi ++ Q)
        = P ++ chOpen ++ wsOf G ++ (k ++ str ",,\n" ++ chBlock fs) ++ closeSemi ++ Q)
    ∧ (coreOf G = [] →
      insertChildren fs (P ++ chOpen ++ G ++ closeSemi ++ Q)
        = P ++ chOpen ++ wsOf G ++ (str ",\n" ++ chBlock fs) ++ closeSemi ++ Q) := by
  have hbase := insertChildren_canonical fs P G Q hfind
  constructor
  · intro k hk
    rw [hbase, hk]
    have h2 : ∀ R : Text, ([','] : Text) ++ (commaNL ++ R) = str ",,\n" ++ R := by
      intro R
      rw [show str ",,\n" = [','] ++ commaNL from rfl]
      simp [List.append_assoc]
    simp only [List.append_assoc]
    rw [h2]
  · intro hk
    rw [hbase, hk]
    rw [show (commaNL : Text) = str ",\n" from rfl]
    simp [List.append_assoc]

set_option maxRecDepth 100000 in
theorem claim_C10_witness :
    (insertChildren exFs (str "g " ++ chOpen ++ str " x,\n " ++ closeSemi ++ str " t")
        = str "g " ++ chOpen ++ wsOf (str " x,\n ")
            ++ (str "x" ++ str ",,\n" ++ chBlock exFs) ++ closeSemi ++ str " t")
    ∧ (insertChildren exFs (str "g " ++ chOpen ++ str "  " ++ closeSemi ++ str " t")
        = str "g " ++ chOpen ++ wsOf (str "  ")
            ++ (str ",\n" ++ chBlock exFs) ++ closeSemi ++ str " t") := by
  constructor
  · exact (claim_C10 exFs (str "g ") (str " x,\n ") (str " t") (by decide)).1
      (str "x") (by decide)
  · exact (claim_C10 exFs (str "g ") (str "  ") (str " t") (by decide)).2 (by decide)

/-! ## Occurrence counting: splitting countSub across concatenations

countSub n (x ++ y) = countSub n x + countSub n y holds whenever no
occurrence of n straddles the junction, i.e. no nonempty split
n = u ++ v has u a suffix of x and v a prefix of y.  The NoCross
obligations are discharged per junction by decidable checks on the
needle against concrete literals, or by character-class arguments for the
abstract pieces (identifiers are uppercase hex, whitespace runs are
whitespace). -/

theorem countSub_nil (n : Text) (hn : n ≠ []) : countSub n [] = 0 := by
  unfold countSub
  have h : n.isPrefixOf ([] : Text) = false := by
    cases n with
    | nil => exact absurd rfl hn
    | cons c t => rfl
  rw [h]
  simp

theorem countSub_cons (n : Text) (c : Char) (t : Text) :
    countSub n (c :: t) = (if n.isPrefixOf (c :: t) then 1 else 0) + countSub n t := rfl

def NoCross (n x y : Text) : Prop :=
  ∀ i, 0 < i → i < n.length → ¬((n.take i) <:+ x ∧ (n.drop i) <+: y)

theorem csplit (n : Text) (hn : n ≠ []) :
    ∀ (x y : Text), NoCross n x y →
      countSub n (x ++ y) = countSub n x + countSub n y := by
  intro x
  induction x with
  | nil =>
    intro y _
    rw [List.nil_append, countSub_nil n hn]
    omega
  | cons c t ih =>
    intro y hnc
    rw [List.cons_append, countSub_cons n c (t ++ y), countSub_cons n c t]
    have hnc' : NoCross n t y := by
      intro i h1 h2 hsp
      exact hnc i h1 h2 ⟨hsp.1.trans (List.suffix_cons c t), hsp.2⟩
    rw [ih y hnc']
    have hhead : n.isPrefixOf (c :: (t ++ y)) = n.isPrefixOf (c :: t) := by
      rw [← List.cons_append]
      cases hq : n.isPrefixOf ((c :: t) ++ y) with
      | false =>
        cases hp : n.isPrefixOf (c :: t) with
        | false => rfl
        | true =>
          exfalso
          have := (List.isPrefixOf_iff_prefix.1 hp).trans (List.prefix_append (c :: t) y)
          rw [List.isPrefixOf_iff_prefix.2 this] at hq
          simp at hq
      | true =>
        cases hp : n.isPrefixOf (c :: t) with
        | true => rfl
        | false =>
          exfalso
          have hpre : n <+: (c :: t) ++ y := List.isPrefixOf_iff_prefix.1 hq
          by_cases hlen : n.length ≤ (c :: t).length
          · have h1 := List.prefix_iff_eq_take.1 hpre
            have h2 : n = (c :: t).take n.length := by
              conv_lhs => rw [h1]
              rw [List.take_append_of_le_length hlen]
            have hnp : n <+: c :: t := by
              rw [h2]
              exact List.take_prefix _ _
            rw [List.isPrefixOf_iff_prefix.2 hnp] at hp
            simp at hp
          · push_neg at hlen
            have hxlen : (c :: t).length < n.length := hlen
            have h1 := List.prefix_iff_eq_take.1 hpre
            have hu : n.take (c :: t).length = c :: t := by
              conv_lhs => rw [h1]
              rw [List.take_take,
                show min (c :: t).length n.length = (c :: t).length from by omega,
                List.take_append_of_le_length (Nat.le_refl _), List.take_length]
            obtain ⟨r, hr⟩ := hpre
            have hv : (n.drop (c :: t).length) <+: y := by
              have hdr := congrArg (List.drop (c :: t).length) hr
              rw [List.drop_append_of_le_length (by omega), List.drop_left] at hdr
              exact ⟨r, hdr⟩
            refine hnc (c :: t).length (by simp) hxlen ⟨?_, hv⟩
            rw [hu]
    rw [hhead]
    omega

theorem ncOfL (n x y : Text) (h : ∀ i, 0 < i → i < n.length → ¬(n.take i) <:+ x) :
    NoCross n x y := fun i h1 h2 hc => h i h1 h2 hc.1

theorem ncOfR (n x y : Text) (h : ∀ i, 0 < i → i < n.length → ¬(n.drop i) <+: y) :
    NoCross n x y := fun i h1 h2 hc => h i h1 h2 hc.2

/-! ### Decidable junction checks and their kill lemmas -/

/-- No nonempty prefix of n (of length at most lit.length) is a suffix of
lit; prefixes longer than lit cannot be suffixes for length reasons. -/
def crossLFree (n lit : Text) : Bool :=
  (List.range n.length).all fun i =>
    decide (i = 0) || decide (lit.length < i) || !((n.take i).isSuffixOf lit)

theorem kL_lit (n lit : Text) (h : crossLFree n lit = true) :
    ∀ i, 0 < i → i < n.length → ¬(n.take i) <:+ lit := by
  intro i h1 h2 hsfx
  have hi := (List.all_eq_true.1 h) i (List.mem_range.2 h2)
  have hlen : (n.take i).length = i := by
    rw [List.length_take]
    omega
  have hle : ¬(lit.length < i) := by
    intro hcase
    have := hsfx.length_le
    omega
  have hns : (n.take i).isSuffixOf lit = true := List.isSuffixOf_iff_suffix.2 hsfx
  rw [hns] at hi
  simp [Nat.pos_iff_ne_zero.1 h1, hle] at hi

/-- No nonempty suffix of n is a prefix of lit, nor contains lit as a
prefix; this bars occurrences of n crossing into lit ++ z for any z. -/
def crossRFree (n lit : Text) : Bool :=
  (List.range n.length).all fun i =>
    decide (i = 0)
      || (if n.length - i ≤ lit.length then !((n.drop i).isPrefixOf lit)
          else !(lit.isPrefixOf (n.drop i)))

theorem kR_lit (n lit : Text) (h : crossRFree n lit = true) (z : Text) :
    ∀ i, 0 < i → i < n.length → ¬(n.drop i) <+: (lit ++ z) := by
  intro i h1 h2 hpre
  have hi := (List.all_eq_true.1 h) i (List.mem_range.2 h2)
  have hlend : (n.drop i).length = n.length - i := List.length_drop i n
  have h1' := List.prefix_iff_eq_take.1 hpre
  by_cases hcase : n.length - i ≤ lit.length
  · have hv : (n.drop i) <+: lit := by
      have h2' : n.drop i = lit.take (n.drop i).length := by
        conv_lhs => rw [h1']
        rw [List.take_append_of_le_length (by omega)]
      rw [h2']
      exact List.take_prefix _ _
    have hb : (n.drop i).isPrefixOf lit = true := List.isPrefixOf_iff_prefix.2 hv
    rw [hb] at hi
    simp [Nat.pos_iff_ne_zero.1 h1, hcase] at hi
  · have hv : lit <+: n.drop i := by
      have h2' : (n.drop i).take lit.length = lit := by
        conv_lhs => rw [h1']
        rw [List.take_take,
          show min lit.length (n.drop i).length = lit.length from by omega,
          List.take_append_of_le_length (Nat.le_refl _), List.take_length]
      rw [← h2']
      exact List.take_prefix _ _
    have hb : lit.isPrefixOf (n.drop i) = true := List.isPrefixOf_iff_prefix.2 hv
    rw [hb] at hi
    simp [Nat.pos_iff_ne_zero.1 h1, hcase] at hi

/-- Window check used when the text right of a junction starts with an
abstract uppercase-hex identifier: at offset i the needle would have to
continue with one or two hex characters. -/
def hexKillAt (n : Text) (i : Nat) : Bool :=
  match n.drop i with
  | [] => true
  | [c] => !(isHexUpper c)
  | c :: d :: _ => !(isHexUpper c && isHexUpper d)

def mixedLitHexFree (n lit : Text) : Bool :=
  (List.range n.length).all fun i =>
    decide (i = 0) || !((n.take i).isSuffixOf lit) || hexKillAt n i

theorem ncMixed (n lit fr z : Text) (h : mixedLitHexFree n lit = true)
    (hfr : ∀ c ∈ fr, isHexUpper c = true) (hlen : 2 ≤ fr.length) :
    NoCross n lit (fr ++ z) := by
  intro i h1 h2 hc
  obtain ⟨hsfx, hpre⟩ := hc
  have hi := (List.all_eq_true.1 h) i (List.mem_range.2 h2)
  have hns : (n.take i).isSuffixOf lit = true := List.isSuffixOf_iff_suffix.2 hsfx
  rw [hns] at hi
  have hkill : hexKillAt n i = true := by
    simp only [Bool.or_eq_true, decide_eq_true_eq, Bool.not_true] at hi
    rcases hi with (hi | hi) | hi
    · omega
    · simp at hi
    · exact hi
  have hvlen : 0 < (n.drop i).length := by
    rw [List.length_drop]
    omega
  cases hv : n.drop i with
  | nil =>
    rw [hv] at hvlen
    simp at hvlen
  | cons c tl =>
    cases tl with
    | nil =>
      have hred : hexKillAt n i = !(isHexUpper c) := by
        unfold hexKillAt
        rw [hv]
      have hcfr : c ∈ fr := by
        have hp1 : ([c] : Text) <+: fr ++ z := by
          rw [← hv]
          exact hpre
        have h2' : ([c] : Text) = (fr ++ z).take 1 := by
          have := List.prefix_iff_eq_take.1 hp1
          simpa using this
        have h1c : ([c] : Text) <+: fr := by
          rw [h2', List.take_append_of_le_length (by omega)]
          exact List.take_prefix _ _
        exact h1c.subset (by simp)
      rw [hred, hfr c hcfr] at hkill
      simp at hkill
    | cons d tl2 =>
      have hred : hexKillAt n i = !(isHexUpper c && isHexUpper d) := by
        unfold hexKillAt
        rw [hv]
      have hpre2 : (c :: d :: tl2 : Text) <+: fr ++ z := by
        rw [← hv]
        exact hpre
      have h2' : ([c, d] : Text) = (fr ++ z).take 2 := by
        have hx := List.prefix_iff_eq_take.1 hpre2
        have h3 : ((c :: d :: tl2).take 2 : Text) = [c, d] := rfl
        rw [← h3]
        conv_lhs => rw [hx]
        rw [List.take_take]
        congr 1
        simp
      have hfr2 : ([c, d] : Text) <+: fr := by
        rw [h2', List.take_append_of_le_length hlen]
        exact List.take_prefix _ _
      rw [hred, hfr c (hfr2.subset (by simp)), hfr d (hfr2.subset (by simp))] at hkill
      simp at hkill

theorem kL_hex (n fr : Text) (hh : isHexUpper (n.headD ' ') = false)
    (hfr : ∀ c ∈ fr, isHexUpper c = true) :
    ∀ i, 0 < i → i < n.length → ¬(n.take i) <:+ fr := by
  intro i h1 h2 hsfx
  cases n with
  | nil => simp at h2
  | cons c t =>
    have hc : c ∈ (c :: t).take i := by
      cases i with
      | zero => omega
      | succ j => simp [List.take_cons]
    have hhex : isHexUpper c = true := hfr c (hsfx.subset hc)
    have hhd : ((c :: t).headD ' ') = c := rfl
    rw [hhd, hhex] at hh
    simp at hh

theorem getLastD_suffix (v n : Text) (hs : v <:+ n) (hv : v ≠ []) (d : Char) :
    v.getLastD d = n.getLastD d := by
  obtain ⟨u, rfl⟩ := hs
  cases hvv : v with
  | nil => exact absurd hvv hv
  | cons c tl =>
    subst hvv
    rw [List.getLastD_eq_getLast?, List.getLastD_eq_getLast?]
    rw [@List.getLast?_append_of_ne_nil _ u (c :: tl) (by simp)]

theorem kR_wsLit (n trail lit z : Text) (htrail : ∀ c ∈ trail, isPySpace c = true)
    (hlast : isPySpace (n.getLastD ' ') = false) (hfree : crossRFree n lit = true) :
    ∀ i, 0 < i → i < n.length → ¬(n.drop i) <+: (trail ++ (lit ++ z)) := by
  intro i h1 h2 hpre
  have hvlen : (n.drop i).length = n.length - i := List.length_drop i n
  have hvne : n.drop i ≠ [] := by
    intro he
    have := congrArg List.length he
    rw [hvlen] at this
    simp at this
    omega
  have h1' := List.prefix_iff_eq_take.1 hpre
  by_cases hcase : (n.drop i).length ≤ trail.length
  · have hvt : (n.drop i) <+: trail := by
      have h2' : n.drop i = trail.take (n.drop i).length := by
        conv_lhs => rw [h1']
        rw [List.take_append_of_le_length hcase]
      rw [h2']
      exact List.take_prefix _ _
    have hlastmem : (n.drop i).getLastD ' ' ∈ n.drop i := by
      cases hw : n.drop i with
      | nil => exact absurd hw hvne
      | cons c tl =>
        rw [List.getLastD_eq_getLast?, List.getLast?_eq_getLast _ (by simp)]
        simp [List.getLast_mem]
    have hws : isPySpace ((n.drop i).getLastD ' ') = true :=
      htrail _ (hvt.subset hlastmem)
    rw [getLastD_suffix (n.drop i) n (List.drop_suffix i n) hvne ' '] at hws
    rw [hws] at hlast
    simp at hlast
  · push_neg at hcase
    have hdrop2 : (n.drop i).drop trail.length <+: lit ++ z := by
      have hdeq : (n.drop i).drop trail.length
          = ((trail ++ (lit ++ z)).take (n.drop i).length).drop trail.length := by
        conv_lhs => rw [h1']
      rw [List.drop_take, List.drop_left] at hdeq
      rw [hdeq]
      exact List.take_prefix _ _
    have hdd : (n.drop i).drop trail.length = n.drop (i + trail.length) :=
      List.drop_drop trail.length i n
    have hlt : i + trail.length < n.length := by
      rw [hvlen] at hcase
      omega
    exact kR_lit n lit hfree z (i + trail.length) (by omega) hlt (hdd ▸ hdrop2)

theorem countSub_zero_allP (P : Char → Bool) (n hay : Text)
    (hn : ∃ c ∈ n, P c = false) (hhay : ∀ c ∈ hay, P c = true) : countSub n hay = 0 := by
  have hne : n ≠ [] := by
    intro he
    subst he
    obtain ⟨c, hc, _⟩ := hn
    simp at hc
  induction hay with
  | nil => exact countSub_nil n hne
  | cons c t ih =>
    rw [countSub_cons]
    have h1 : n.isPrefixOf (c :: t) = false := by
      cases hp : n.isPrefixOf (c :: t) with
      | false => rfl
      | true =>
        exfalso
        obtain ⟨a, ha, haf⟩ := hn
        have := hhay a ((List.isPrefixOf_iff_prefix.1 hp).subset ha)
        rw [this] at haf
        simp at haf
    rw [h1, ih fun a ha => hhay a (List.mem_cons_of_mem c ha)]
    simp

theorem countSub_zero_short (n hay : Text) (h : hay.length < n.length) :
    countSub n hay = 0 := by
  have hne : n ≠ [] := by
    intro he
    subst he
    simp at h
  induction hay with
  | nil => exact countSub_nil n hne
  | cons c t ih =>
    rw [countSub_cons]
    have h1 : n.isPrefixOf (c :: t) = false := by
      cases hp : n.isPrefixOf (c :: t) with
      | false => rfl
      | true =>
        exfalso
        have := (List.isPrefixOf_iff_prefix.1 hp).length_le
        omega
    rw [h1, ih (by simp at h ⊢; omega)]
    simp

theorem findSubAux_isSome (n : Text) :
    ∀ (h : Text) (i j : Nat), (findSubAux n h i).isSome = (findSubAux n h j).isSome := by
  intro h
  induction h with
  | nil =>
    intro i j
    unfold findSubAux
    by_cases hp : n.isPrefixOf ([] : Text) = true
    · simp [hp]
    · simp only [Bool.not_eq_true] at hp
      simp [hp]
  | cons c t ih =>
    intro i j
    unfold findSubAux
    by_cases hp : n.isPrefixOf (c :: t) = true
    · simp [hp]
    · simp only [Bool.not_eq_true] at hp
      simp [hp]
      exact ih (i + 1) (j + 1)

theorem hasSub_cons (n : Text) (c : Char) (t : Text) (h : hasSub n t = true) :
    hasSub n (c :: t) = true := by
  unfold hasSub findSub at h ⊢
  unfold findSubAux
  by_cases hp : n.isPrefixOf (c :: t) = true
  · simp [hp]
  · simp only [Bool.not_eq_true] at hp
    simp [hp]
    rw [findSubAux_isSome n t 1 0]
    exact h

/-- The text x ++ (n ++ y) contains n as a substring. -/
theorem hasSub_middle (n x y : Text) : hasSub n (x ++ (n ++ y)) = true := by
  induction x with
  | nil =>
    rw [List.nil_append]
    unfold hasSub findSub findSubAux
    rw [List.isPrefixOf_iff_prefix.2 (List.prefix_append n y)]
    rfl
  | cons c t ih =>
    rw [List.cons_append]
    exact hasSub_cons n c _ ih

/-! ## Literal segments of the inserted entries -/

def ttL : Text := str "\t\t"
def nlL : Text := str "\n"
def ttttL : Text := str "\t\t\t\t"
def bfL1a : Text := str " /* NewsArticle.swift in Sources */ = \x7bisa = PBXBuildFile; fileRef = "
def bfL1b : Text := str " /* NewsArticle.swift */; \x7d;"
def bfL2a : Text := str " /* NewsArticle+CoreDataProperties.swift in Sources */ = \x7bisa = PBXBuildFile; fileRef = "
def bfL2b : Text := str " /* NewsArticle+CoreDataProperties.swift */; \x7d;"
def frL1 : Text := str " /* NewsArticle.swift */ = \x7bisa = PBXFileReference; lastKnownFileType = sourcecode.swift; path = NewsArticle.swift; sourceTree = \"<group>\"; \x7d;"
def frL2 : Text := str " /* NewsArticle+CoreDataProperties.swift */ = \x7bisa = PBXFileReference; lastKnownFileType = sourcecode.swift; path = NewsArticle+CoreDataProperties.swift; sourceTree = \"<group>\"; \x7d;"
def chL1 : Text := str " /* NewsArticle.swift */,"
def chL2 : Text := str " /* NewsArticle+CoreDataProperties.swift */,"
def srL1 : Text := str " /* NewsArticle.swift in Sources */,"
def srL2 : Text := str " /* NewsArticle+CoreDataProperties.swift in Sources */,"

theorem buildFileEntry_eq1 (fr bf : Text) :
    buildFileEntry (str "NewsArticle.swift", fr, bf)
      = ttL ++ (bf ++ (bfL1a ++ (fr ++ bfL1b))) := by
  unfold buildFileEntry ttL bfL1a bfL1b
  have e1 : str " /* " ++ str "NewsArticle.swift"
        ++ str " in Sources */ = \x7bisa = PBXBuildFile; fileRef = "
      = str " /* NewsArticle.swift in Sources */ = \x7bisa = PBXBuildFile; fileRef = " := by
    decide
  have e2 : str " /* " ++ str "NewsArticle.swift" ++ str " */; \x7d;"
      = str " /* NewsArticle.swift */; \x7d;" := by decide
  simp only [List.append_assoc]
  rw [← e1, ← e2]
  simp only [List.append_assoc]

theorem buildFileEntry_eq2 (fr bf : Text) :
    buildFileEntry (str "NewsArticle+CoreDataProperties.swift", fr, bf)
      = ttL ++ (bf ++ (bfL2a ++ (fr ++ bfL2b))) := by
  unfold buildFileEntry ttL bfL2a bfL2b
  have e1 : str " /* " ++ str "NewsArticle+CoreDataProperties.swift"
        ++ str " in Sources */ = \x7bisa = PBXBuildFile; fileRef = "
      = str " /* NewsArticle+CoreDataProperties.swift in Sources */ = \x7bisa = PBXBuildFile; fileRef = " := by
    decide
  have e2 : str " /* " ++ str "NewsArticle+CoreDataProperties.swift" ++ str " */; \x7d;"
      = str " /* NewsArticle+CoreDataProperties.swift */; \x7d;" := by decide
  simp only [List.append_assoc]
  rw [← e1, ← e2]
  simp only [List.append_assoc]

theorem fileRefEntry_eq1 (fr bf : Text) :
    fileRefEntry (str "NewsArticle.swift", fr, bf) = ttL ++ (fr ++ frL1) := by
  unfold fileRefEntry ttL frL1
  have e1 : str " /* " ++ str "NewsArticle.swift"
        ++ str " */ = \x7bisa = PBXFileReference; lastKnownFileType = sourcecode.swift; path = "
        ++ str "NewsArticle.swift" ++ str "; sourceTree = \"<group>\"; \x7d;"
      = str " /* NewsArticle.swift */ = \x7bisa = PBXFileReference; lastKnownFileType = sourcecode.swift; path = NewsArticle.swift; sourceTree = \"<group>\"; \x7d;" := by
    decide
  simp only [List.append_assoc]
  rw [← e1]
  simp only [List.append_assoc]

theorem fileRefEntry_eq2 (fr bf : Text) :
    fileRefEntry (str "NewsArticle+CoreDataProperties.swift", fr, bf) = ttL ++ (fr ++ frL2) := by
  unfold fileRefEntry ttL frL2
  have e1 : str " /* " ++ str "NewsArticle+CoreDataProperties.swift"
        ++ str " */ = \x7bisa = PBXFileReference; lastKnownFileType = sourcecode.swift; path = "
        ++ str "NewsArticle+CoreDataProperties.swift" ++ str "; sourceTree = \"<group>\"; \x7d;"
      = str " /* NewsArticle+CoreDataProperties.swift */ = \x7bisa = PBXFileReference; lastKnownFileType = sourcecode.swift; path = NewsArticle+CoreDataProperties.swift; sourceTree = \"<group>\"; \x7d;" := by
    decide
  simp only [List.append_assoc]
  rw [← e1]
  simp only [List.append_assoc]

theorem childLine_eq1 (fr bf : Text) :
    childLine (str "NewsArticle.swift", fr, bf) = ttttL ++ (fr ++ chL1) := by
  unfold childLine ttttL chL1
  have e1 : str " /* " ++ str "NewsArticle.swift" ++ str " */,"
      = str " /* NewsArticle.swift */," := by decide
  simp only [List.append_assoc]
  rw [← e1]
  simp only [List.append_assoc]

theorem childLine_eq2 (fr bf : Text) :
    childLine (str "NewsArticle+CoreDataProperties.swift", fr, bf) = ttttL ++ (fr ++ chL2) := by
  unfold childLine ttttL chL2
  have e1 : str " /* " ++ str "NewsArticle+CoreDataProperties.swift" ++ str " */,"
      = str " /* NewsArticle+CoreDataProperties.swift */," := by decide
  simp only [List.append_assoc]
  rw [← e1]
  simp only [List.append_assoc]

theorem sourceLine_eq1 (fr bf : Text) :
    sourceLine (str "NewsArticle.swift", fr, bf) = ttttL ++ (bf ++ srL1) := by
  unfold sourceLine ttttL srL1
  have e1 : str " /* " ++ str "NewsArticle.swift" ++ str " in Sources */,"
      = str " /* NewsArticle.swift in Sources */," := by decide
  simp only [List.append_assoc]
  rw [← e1]
  simp only [List.append_assoc]

theorem sourceLine_eq2 (fr bf : Text) :
    sourceLine (str "NewsArticle+CoreDataProperties.swift", fr, bf) = ttttL ++ (bf ++ srL2) := by
  unfold sourceLine ttttL srL2
  have e1 : str " /* " ++ str "NewsArticle+CoreDataProperties.swift" ++ str " in Sources */,"
      = str " /* NewsArticle+CoreDataProperties.swift in Sources */," := by decide
  simp only [List.append_assoc]
  rw [← e1]
  simp only [List.append_assoc]

/-! ## Flat segment chains for the structured output and input -/

theorem c4ex_chain (fr1 bf1 fr2 bf2 A B C D E F G S : Text) :
    c4ex (twoFs fr1 bf1 fr2 bf2) A B C D E F G S
      = A ++ (ttL ++ (bf1 ++ (bfL1a ++ (fr1 ++ (bfL1b ++ (nlL ++ (ttL ++ (bf2 ++ (bfL2a ++ (fr2 ++
        (bfL2b ++ (nlTT ++ (m1txt ++ (B ++ (ttL ++ (fr1 ++ (frL1 ++ (nlL ++ (ttL ++ (fr2 ++ (frL2
        ++ (nlTT ++ (m2txt ++ (C ++ (chOpen ++ ((wsOf G ++ coreOf G) ++ (commaNL ++ (ttttL ++ (fr1
        ++ (chL1 ++ (nlL ++ (ttttL ++ (fr2 ++ (chL2 ++ (closeSemi ++ (D ++ (flOpen ++ ((wsOf S ++
        coreOf S) ++ (commaNL ++ (ttttL ++ (bf1 ++ (srL1 ++ (nlL ++ (ttttL ++ (bf2 ++ (srL2 ++
        (trailOf S ++ (closeSemi ++ (E ++ (srcCmt ++
        F)))))))))))))))))))))))))))))))))))))))))))))))))) := by
  unfold c4ex pre4 pre3 pre2 bfBlock frBlock chBlock srBlock twoFs
  simp only [List.map]
  rw [joinNL_two, joinNL_two, joinNL_two, joinNL_two]
  rw [buildFileEntry_eq1, buildFileEntry_eq2, fileRefEntry_eq1, fileRefEntry_eq2,
    childLine_eq1, childLine_eq2, sourceLine_eq1, sourceLine_eq2]
  rw [show (str "\n" : Text) = nlL from rfl]
  simp only [List.append_assoc]

theorem content_chain (A B C D E F G S : Text) :
    mkManifest A B C D E F G S
      = A ++ (m1txt ++ (B ++ (m2txt ++ (C ++ (chOpen ++ ((wsOf G ++ coreOf G) ++ (trailOf G ++
        (closeSemi ++ (D ++ (flOpen ++ ((wsOf S ++ coreOf S) ++ (trailOf S ++ (closeSemi ++ (E ++
        (srcCmt ++ F))))))))))))))) := by
  unfold mkManifest
  conv_lhs => rw [show G = wsOf G ++ (coreOf G ++ trailOf G) from ws_body_core_trail G]
  conv_lhs => rw [show S = wsOf S ++ (coreOf S ++ trailOf S) from ws_body_core_trail S]
  simp only [List.append_assoc]

/-! ## The per-needle side-condition bundle and the master count theorem -/

theorem csplit_R (n : Text) (hn : n ≠ []) (x lit z : Text) (h : crossRFree n lit = true) :
    countSub n (x ++ (lit ++ z)) = countSub n x + countSub n (lit ++ z) :=
  csplit n hn x (lit ++ z) (ncOfR n x (lit ++ z) (kR_lit n lit h z))

theorem csplit_L (n : Text) (hn : n ≠ []) (lit y : Text) (h : crossLFree n lit = true) :
    countSub n (lit ++ y) = countSub n lit + countSub n y :=
  csplit n hn lit y (ncOfL n lit y (kL_lit n lit h))

theorem csplit_hexL (n : Text) (hn : n ≠ []) (fr y : Text)
    (hh : isHexUpper (n.headD ' ') = false) (hfr : ∀ c ∈ fr, isHexUpper c = true) :
    countSub n (fr ++ y) = countSub n fr + countSub n y :=
  csplit n hn fr y (ncOfL n fr y (kL_hex n fr hh hfr))

theorem csplit_mixed (n : Text) (hn : n ≠ []) (lit fr z : Text)
    (h : mixedLitHexFree n lit = true) (hfr : ∀ c ∈ fr, isHexUpper c = true)
    (hlen : 2 ≤ fr.length) :
    countSub n (lit ++ (fr ++ z)) = countSub n lit + countSub n (fr ++ z) :=
  csplit n hn lit (fr ++ z) (ncMixed n lit fr z h hfr hlen)

theorem csplit_wsR (n : Text) (hn : n ≠ []) (x trail lit z : Text)
    (htrail : ∀ c ∈ trail, isPySpace c = true)
    (hlast : isPySpace (n.getLastD ' ') = false) (hfree : crossRFree n lit = true) :
    countSub n (x ++ (trail ++ (lit ++ z)))
      = countSub n x + countSub n (trail ++ (lit ++ z)) :=
  csplit n hn x (trail ++ (lit ++ z))
    (ncOfR n x _ (kR_wsLit n trail lit z htrail hlast hfree))

/-- All decidable side conditions a needle must satisfy so that counting
splits cleanly at every junction of the structured input and output. -/
def needleOK (n : Text) : Bool :=
  decide (n ≠ [])
  && n.any (fun c => !isPySpace c)
  && n.any (fun c => !isHexUpper c)
  && !(isHexUpper (n.headD ' '))
  && !(isPySpace (n.getLastD ' '))
  && crossLFree n ttL && crossLFree n ttttL
  && crossLFree n m1txt && crossLFree n m2txt
  && crossLFree n chOpen && crossLFree n closeSemi
  && crossLFree n flOpen && crossLFree n srcCmt
  && crossRFree n ttL && crossRFree n ttttL && crossRFree n nlL && crossRFree n nlTT
  && crossRFree n m1txt && crossRFree n m2txt && crossRFree n chOpen
  && crossRFree n closeSemi && crossRFree n flOpen && crossRFree n srcCmt
  && crossRFree n commaNL
  && mixedLitHexFree n bfL1a && mixedLitHexFree n bfL2a

/-- Total of the occurrence counts contributed by the literal segments of
the four inserted blocks (identifier segments contribute nothing for a
needleOK needle). -/
def insCount (n : Text) : Nat :=
  countSub n ttL + countSub n bfL1a + countSub n bfL1b + countSub n nlL
    + countSub n ttL + countSub n bfL2a + countSub n bfL2b + countSub n nlTT
    + countSub n ttL + countSub n frL1 + countSub n nlL
    + countSub n ttL + countSub n frL2 + countSub n nlTT
    + countSub n commaNL + countSub n ttttL + countSub n chL1 + countSub n nlL
    + countSub n ttttL + countSub n chL2
    + countSub n commaNL + countSub n ttttL + countSub n srL1 + countSub n nlL
    + countSub n ttttL + countSub n srL2

/-- Master counting theorem: on the structured manifest, one run changes
the number of occurrences of a needleOK needle by exactly the needle's
count inside the inserted literal segments. -/
theorem master_count (n fr1 bf1 fr2 bf2 A B C D E F G S : Text)
    (hok : needleOK n = true)
    (hfr1 : ∀ c ∈ fr1, isHexUpper c = true) (hlfr1 : 2 ≤ fr1.length)
    (hbf1 : ∀ c ∈ bf1, isHexUpper c = true) (hlbf1 : 2 ≤ bf1.length)
    (hfr2 : ∀ c ∈ fr2, isHexUpper c = true) (hlfr2 : 2 ≤ fr2.length)
    (hbf2 : ∀ c ∈ bf2, isHexUpper c = true) (hlbf2 : 2 ≤ bf2.length) :
    countSub n (c4ex (twoFs fr1 bf1 fr2 bf2) A B C D E F G S)
      = countSub n (mkManifest A B C D E F G S) + insCount n := by
  simp only [needleOK, Bool.and_eq_true, decide_eq_true_eq, Bool.not_eq_true'] at hok
  obtain ⟨⟨⟨⟨⟨⟨⟨⟨⟨⟨⟨⟨⟨⟨⟨⟨⟨⟨⟨⟨⟨⟨⟨⟨⟨hne, hanyws⟩, hanyhex⟩, hheadhex⟩, hlastws⟩,
    hLtt⟩, hLtttt⟩, hLm1⟩, hLm2⟩, hLch⟩, hLcs⟩, hLfl⟩, hLsc⟩,
    hRtt⟩, hRtttt⟩, hRnl⟩, hRnlTT⟩, hRm1⟩, hRm2⟩, hRch⟩, hRcs⟩, hRfl⟩, hRsc⟩, hRcnl⟩,
    hM1⟩, hM2⟩ := hok
  have hnws : ∃ c ∈ n, isPySpace c = false := by
    obtain ⟨c, hc1, hc2⟩ := List.any_eq_true.1 hanyws
    exact ⟨c, hc1, by simpa using hc2⟩
  have hnhex : ∃ c ∈ n, isHexUpper c = false := by
    obtain ⟨c, hc1, hc2⟩ := List.any_eq_true.1 hanyhex
    exact ⟨c, hc1, by simpa using hc2⟩
  have hzfr1 : countSub n fr1 = 0 := countSub_zero_allP isHexUpper n fr1 hnhex hfr1
  have hzbf1 : countSub n bf1 = 0 := countSub_zero_allP isHexUpper n bf1 hnhex hbf1
  have hzfr2 : countSub n fr2 = 0 := countSub_zero_allP isHexUpper n fr2 hnhex hfr2
  have hzbf2 : countSub n bf2 = 0 := countSub_zero_allP isHexUpper n bf2 hnhex hbf2
  have htrG : ∀ c ∈ trailOf G, isPySpace c = true := fun c hc => trail_all_ws (bodyOf G) c hc
  have htrS : ∀ c ∈ trailOf S, isPySpace c = true := fun c hc => trail_all_ws (bodyOf S) c hc
  have hztrG : countSub n (trailOf G) = 0 :=
    countSub_zero_allP isPySpace n (trailOf G) hnws htrG
  rw [c4ex_chain, content_chain]
  rw [csplit_R n hne A ttL _ hRtt]
  rw [csplit_L n hne ttL _ hLtt]
  rw [csplit_hexL n hne bf1 _ hheadhex hbf1]
  rw [csplit_mixed n hne bfL1a fr1 _ hM1 hfr1 hlfr1]
  rw [csplit_hexL n hne fr1 _ hheadhex hfr1]
  rw [csplit_R n hne bfL1b nlL _ hRnl]
  rw [csplit_R n hne nlL ttL _ hRtt]
  rw [csplit_L n hne ttL _ hLtt]
  rw [csplit_hexL n hne bf2 _ hheadhex hbf2]
  rw [csplit_mixed n hne bfL2a fr2 _ hM2 hfr2 hlfr2]
  rw [csplit_hexL n hne fr2 _ hheadhex hfr2]
  rw [csplit_R n hne bfL2b nlTT _ hRnlTT]
  rw [csplit_R n hne nlTT m1txt _ hRm1]
  rw [csplit_L n hne m1txt _ hLm1]
  rw [csplit_R n hne B ttL _ hRtt]
  rw [csplit_L n hne ttL _ hLtt]
  rw [csplit_hexL n hne fr1 _ hheadhex hfr1]
  rw [csplit_R n hne frL1 nlL _ hRnl]
  rw [csplit_R n hne nlL ttL _ hRtt]
  rw [csplit_L n hne ttL _ hLtt]
  rw [csplit_hexL n hne fr2 _ hheadhex hfr2]
  rw [csplit_R n hne frL2 nlTT _ hRnlTT]
  rw [csplit_R n hne nlTT m2txt _ hRm2]
  rw [csplit_L n hne m2txt _ hLm2]
  rw [csplit_R n hne C chOpen _ hRch]
  rw [csplit_L n hne chOpen _ hLch]
  rw [csplit_R n hne (wsOf G ++ coreOf G) commaNL _ hRcnl]
  rw [csplit_R n hne commaNL ttttL _ hRtttt]
  rw [csplit_L n hne ttttL _ hLtttt]
  rw [csplit_hexL n hne fr1 _ hheadhex hfr1]
  rw [csplit_R n hne chL1 nlL _ hRnl]
  rw [csplit_R n hne nlL ttttL _ hRtttt]
  rw [csplit_L n hne ttttL _ hLtttt]
  rw [csplit_hexL n hne fr2 _ hheadhex hfr2]
  rw [csplit_R n hne chL2 closeSemi _ hRcs]
  rw [csplit_L n hne closeSemi _ hLcs]
  rw [csplit_R n hne D flOpen _ hRfl]
  rw [csplit_L n hne flOpen _ hLfl]
  rw [csplit_R n hne (wsOf S ++ coreOf S) commaNL _ hRcnl]
  rw [csplit_R n hne commaNL ttttL _ hRtttt]
  rw [csplit_L n hne ttttL _ hLtttt]
  rw [csplit_hexL n hne bf1 _ hheadhex hbf1]
  rw [csplit_R n hne srL1 nlL _ hRnl]
  rw [csplit_R n hne nlL ttttL _ hRtttt]
  rw [csplit_L n hne ttttL _ hLtttt]
  rw [csplit_hexL n hne bf2 _ hheadhex hbf2]
  rw [csplit_wsR n hne srL2 (trailOf S) closeSemi _ htrS hlastws hRcs]
  rw [csplit_R n hne (trailOf S) closeSemi _ hRcs]
  rw [csplit_L n hne closeSemi _ hLcs]
  rw [csplit_R n hne E srcCmt _ hRsc]
  rw [csplit_L n hne srcCmt _ hLsc]
  rw [csplit_R n hne A m1txt _ hRm1]
  rw [csplit_L n hne m1txt _ hLm1]
  rw [csplit_R n hne B m2txt _ hRm2]
  rw [csplit_L n hne m2txt _ hLm2]
  rw [csplit_R n hne C chOpen _ hRch]
  rw [csplit_L n hne chOpen _ hLch]
  rw [csplit_wsR n hne (wsOf G ++ coreOf G) (trailOf G) closeSemi _ htrG hlastws hRcs]
  rw [csplit_R n hne (trailOf G) closeSemi _ hRcs]
  rw [csplit_L n hne closeSemi _ hLcs]
  rw [csplit_R n hne D flOpen _ hRfl]
  rw [csplit_L n hne flOpen _ hLfl]
  rw [csplit_wsR n hne (wsOf S ++ coreOf S) (trailOf S) closeSemi _ htrS hlastws hRcs]
  rw [csplit_R n hne (trailOf S) closeSemi _ hRcs]
  rw [csplit_L n hne closeSemi _ hLcs]
  rw [csplit_R n hne E srcCmt _ hRsc]
  rw [csplit_L n hne srcCmt _ hLsc]
  rw [hzfr1, hzbf1, hzfr2, hzbf2, hztrG]
  unfold insCount
  omega

/-! ## Claim C1: exactly one new entry per file and per section -/

/-- Identifier-free core of the PBXBuildFile line for NewsArticle.swift:
counting its occurrences counts build-file entries for that file
independently of the random identifiers around it. -/
def nb1 : Text := str " /* NewsArticle.swift in Sources */ = \x7bisa = PBXBuildFile; fileRef ="

def nb2 : Text := str " /* NewsArticle+CoreDataProperties.swift in Sources */ = \x7bisa = PBXBuildFile; fileRef ="

def nf1 : Text := str " /* NewsArticle.swift */ = \x7bisa = PBXFileReference; lastKnownFileType = sourcecode.swift; path = NewsArticle.swift; sourceTree ="

def nf2 : Text := str " /* NewsArticle+CoreDataProperties.swift */ = \x7bisa = PBXFileReference; lastKnownFileType = sourcecode.swift; path = NewsArticle+CoreDataProperties.swift; sourceTree ="

theorem hasSub_append_left (n : Text) : ∀ (x t : Text), hasSub n t = true → hasSub n (x ++ t) = true := by
  intro x
  induction x with
  | nil =>
    intro t h
    simpa using h
  | cons c u ih =>
    intro t h
    rw [List.cons_append]
    exact hasSub_cons n c _ (ih t h)

theorem hasSub_here (n y : Text) : hasSub n (n ++ y) = true := by
  have := hasSub_middle n [] y
  simpa using this

/-- Entry-level view of the structured output: the four inserted entries
appear contiguously, each built around its pair of identifiers. -/
theorem c4ex_entry_chain (fr1 bf1 fr2 bf2 A B C D E F G S : Text) :
    c4ex (twoFs fr1 bf1 fr2 bf2) A B C D E F G S
      = A ++ (buildFileEntry (str "NewsArticle.swift", fr1, bf1)
          ++ (nlL ++ (buildFileEntry (str "NewsArticle+CoreDataProperties.swift", fr2, bf2)
          ++ (nlTT ++ (m1txt ++ (B
          ++ (fileRefEntry (str "NewsArticle.swift", fr1, bf1)
          ++ (nlL ++ (fileRefEntry (str "NewsArticle+CoreDataProperties.swift", fr2, bf2)
          ++ (nlTT ++ (m2txt ++ (C ++ (chOpen ++ (wsOf G
          ++ ((coreOf G ++ (commaNL ++ chBlock (twoFs fr1 bf1 fr2 bf2)))
          ++ (closeSemi ++ (D ++ (flOpen ++ (wsOf S
          ++ ((coreOf S ++ (commaNL ++ srBlock (twoFs fr1 bf1 fr2 bf2)))
          ++ (trailOf S ++ (closeSemi ++ (E ++ (srcCmt
          ++ F)))))))))))))))))))))))) := by
  unfold c4ex pre4 pre3 pre2 bfBlock frBlock twoFs
  simp only [List.map]
  rw [joinNL_two, joinNL_two]
  rw [show (str "\n" : Text) = nlL from rfl]
  simp only [List.append_assoc]

/-- Claim C1: on a structured manifest carrying all four landmarks, one
run adds exactly one new PBXBuildFile line and exactly one new
PBXFileReference line per target file name (occurrence counts of the
identifier-free entry cores each grow by exactly one), and the output
contains, for each file, a full build-file entry and a full
file-reference entry built around the SAME fileRef identifier. -/
theorem claim_C1 (fr1 bf1 fr2 bf2 A B C D E F G S : Text)
    (hfr1 : ∀ c ∈ fr1, isHexUpper c = true) (hlfr1 : 2 ≤ fr1.length)
    (hbf1 : ∀ c ∈ bf1, isHexUpper c = true) (hlbf1 : 2 ≤ bf1.length)
    (hfr2 : ∀ c ∈ fr2, isHexUpper c = true) (hlfr2 : 2 ≤ fr2.length)
    (hbf2 : ∀ c ∈ bf2, isHexUpper c = true) (hlbf2 : 2 ≤ bf2.length)
    (h1 : findSub m1txt (mkManifest A B C D E F G S) = some A.length)
    (h2 : findSub m2txt (c1ex (twoFs fr1 bf1 fr2 bf2) A B C D E F G S)
        = some (pre2 (twoFs fr1 bf1 fr2 bf2) A B).length)
    (h3 : childrenFind (c2ex (twoFs fr1 bf1 fr2 bf2) A B C D E F G S)
        = some ((pre3 (twoFs fr1 bf1 fr2 bf2) A B C G).length,
            (pre3 (twoFs fr1 bf1 fr2 bf2) A B C G).length + (bodyOf G).length))
    (h4 : sourcesFind (c3ex (twoFs fr1 bf1 fr2 bf2) A B C D E F G S)
        = some ((pre4 (twoFs fr1 bf1 fr2 bf2) A B C D G S).length,
            (pre4 (twoFs fr1 bf1 fr2 bf2) A B C D G S).length + (coreOf S).length)) :
    countSub nb1 (runSteps (twoFs fr1 bf1 fr2 bf2) (mkManifest A B C D E F G S))
        = countSub nb1 (mkManifest A B C D E F G S) + 1
    ∧ countSub nb2 (runSteps (twoFs fr1 bf1 fr2 bf2) (mkManifest A B C D E F G S))
        = countSub nb2 (mkManifest A B C D E F G S) + 1
    ∧ countSub nf1 (runSteps (twoFs fr1 bf1 fr2 bf2) (mkManifest A B C D E F G S))
        = countSub nf1 (mkManifest A B C D E F G S) + 1
    ∧ countSub nf2 (runSteps (twoFs fr1 bf1 fr2 bf2) (mkManifest A B C D E F G S))
        = countSub nf2 (mkManifest A B C D E F G S) + 1
    ∧ hasSub (buildFileEntry (str "NewsArticle.swift", fr1, bf1))
        (runSteps (twoFs fr1 bf1 fr2 bf2) (mkManifest A B C D E F G S)) = true
    ∧ hasSub (fileRefEntry (str "NewsArticle.swift", fr1, bf1))
        (runSteps (twoFs fr1 bf1 fr2 bf2) (mkManifest A B C D E F G S)) = true
    ∧ hasSub (buildFileEntry (str "NewsArticle+CoreDataProperties.swift", fr2, bf2))
        (runSteps (twoFs fr1 bf1 fr2 bf2) (mkManifest A B C D E F G S)) = true
    ∧ hasSub (fileRefEntry (str "NewsArticle+CoreDataProperties.swift", fr2, bf2))
        (runSteps (twoFs fr1 bf1 fr2 bf2) (mkManifest A B C D E F G S)) = true := by
  have hrun := runSteps_explicit (twoFs fr1 bf1 fr2 bf2) A B C D E F G S h1 h2 h3 h4
  rw [hrun]
  have hcnt : ∀ m : Text, needleOK m = true → insCount m = 1 →
      countSub m (c4ex (twoFs fr1 bf1 fr2 bf2) A B C D E F G S)
        = countSub m (mkManifest A B C D E F G S) + 1 := by
    intro m hok hins
    rw [master_count m fr1 bf1 fr2 bf2 A B C D E F G S hok hfr1 hlfr1 hbf1 hlbf1
      hfr2 hlfr2 hbf2 hlbf2, hins]
  have hchain := c4ex_entry_chain fr1 bf1 fr2 bf2 A B C D E F G S
  refine ⟨hcnt nb1 (by decide) (by decide), hcnt nb2 (by decide) (by decide),
    hcnt nf1 (by decide) (by decide), hcnt nf2 (by decide) (by decide), ?_, ?_, ?_, ?_⟩
  · rw [hchain]
    exact hasSub_middle _ A _
  · rw [hchain]
    refine hasSub_append_left _ A _ (hasSub_append_left _ _ _ (hasSub_append_left _ nlL _
      (hasSub_append_left _ _ _ (hasSub_append_left _ nlTT _ (hasSub_append_left _ m1txt _
      (hasSub_append_left _ B _ (hasSub_here _ _)))))))
  · rw [hchain]
    refine hasSub_append_left _ A _ (hasSub_append_left _ _ _ (hasSub_append_left _ nlL _
      (hasSub_here _ _)))
  · rw [hchain]
    refine hasSub_append_left _ A _ (hasSub_append_left _ _ _ (hasSub_append_left _ nlL _
      (hasSub_append_left _ _ _ (hasSub_append_left _ nlTT _ (hasSub_append_left _ m1txt _
      (hasSub_append_left _ B _ (hasSub_append_left _ _ _ (hasSub_append_left _ nlL _
      (hasSub_here _ _)))))))))

def exG : Text := str "\n\t\t\t\tCC44 /* a.swift */,\n\t\t\t"
def whFs : List (Text × Text × Text) :=
  twoFs (str "AB12") (str "CD34") (str "EF56") (str "A1B2")

theorem claim_C1_witness :
    countSub nb1 (runSteps whFs (mkManifest exA exB exC exD exE exF exG exS))
        = countSub nb1 (mkManifest exA exB exC exD exE exF exG exS) + 1
    ∧ countSub nb2 (runSteps whFs (mkManifest exA exB exC exD exE exF exG exS))
        = countSub nb2 (mkManifest exA exB exC exD exE exF exG exS) + 1
    ∧ countSub nf1 (runSteps whFs (mkManifest exA exB exC exD exE exF exG exS))
        = countSub nf1 (mkManifest exA exB exC exD exE exF exG exS) + 1
    ∧ countSub nf2 (runSteps whFs (mkManifest exA exB exC exD exE exF exG exS))
        = countSub nf2 (mkManifest exA exB exC exD exE exF exG exS) + 1
    ∧ hasSub (buildFileEntry (str "NewsArticle.swift", str "AB12", str "CD34"))
        (runSteps whFs (mkManifest exA exB exC exD exE exF exG exS)) = true
    ∧ hasSub (fileRefEntry (str "NewsArticle.swift", str "AB12", str "CD34"))
        (runSteps whFs (mkManifest exA exB exC exD exE exF exG exS)) = true
    ∧ hasSub (buildFileEntry (str "NewsArticle+CoreDataProperties.swift", str "EF56", str "A1B2"))
        (runSteps whFs (mkManifest exA exB exC exD exE exF exG exS)) = true
    ∧ hasSub (fileRefEntry (str "NewsArticle+CoreDataProperties.swift", str "EF56", str "A1B2"))
        (runSteps whFs (mkManifest exA exB exC exD exE exF exG exS)) = true :=
  claim_C1 (str "AB12") (str "CD34") (str "EF56") (str "A1B2")
    exA exB exC exD exE exF exG exS
    (by decide) (by decide) (by decide) (by decide) (by decide) (by decide)
    (by decide) (by decide) (by decide) (by decide) (by decide) (by decide)

/-! ## Claim C3: a second run duplicates the inserted entries -/

def a2 (fs : List (Text × Text × Text)) (A : Text) : Text := A ++ bfBlock fs ++ nlTT
def b2 (fs : List (Text × Text × Text)) (B : Text) : Text := B ++ frBlock fs ++ nlTT
def g2 (fs : List (Text × Text × Text)) (G : Text) : Text :=
  wsOf G ++ coreOf G ++ commaNL ++ chBlock fs
def s2 (fs : List (Text × Text × Text)) (S : Text) : Text :=
  wsOf S ++ coreOf S ++ commaNL ++ srBlock fs ++ trailOf S

/-- The output of one run is itself a structured manifest: every landmark
is still present, with the inserted blocks absorbed into the pieces. -/
theorem c4ex_as_manifest (fs : List (Text × Text × Text)) (A B C D E F G S : Text) :
    c4ex fs A B C D E F G S
      = mkManifest (a2 fs A) (b2 fs B) C D E F (g2 fs G) (s2 fs S) := by
  unfold c4ex pre4 pre3 pre2 mkManifest a2 b2 g2 s2
  simp only [List.append_assoc]

/-- Claim C3: the procedure is not idempotent.  Running it a second time
on the output of a first run inserts the entries again: the occurrence
count of each per-file entry core grows by one more, ending at the
original count plus two (two build-file lines and two file-reference
lines per target file name), with no de-duplication. -/
theorem claim_C3 (fr1 bf1 fr2 bf2 gr1 gb1 gr2 gb2 A B C D E F G S : Text)
    (hfr1 : ∀ c ∈ fr1, isHexUpper c = true) (hlfr1 : 2 ≤ fr1.length)
    (hbf1 : ∀ c ∈ bf1, isHexUpper c = true) (hlbf1 : 2 ≤ bf1.length)
    (hfr2 : ∀ c ∈ fr2, isHexUpper c = true) (hlfr2 : 2 ≤ fr2.length)
    (hbf2 : ∀ c ∈ bf2, isHexUpper c = true) (hlbf2 : 2 ≤ bf2.length)
    (hgr1 : ∀ c ∈ gr1, isHexUpper c = true) (hlgr1 : 2 ≤ gr1.length)
    (hgb1 : ∀ c ∈ gb1, isHexUpper c = true) (hlgb1 : 2 ≤ gb1.length)
    (hgr2 : ∀ c ∈ gr2, isHexUpper c = true) (hlgr2 : 2 ≤ gr2.length)
    (hgb2 : ∀ c ∈ gb2, isHexUpper c = true) (hlgb2 : 2 ≤ gb2.length)
    (h1 : findSub m1txt (mkManifest A B C D E F G S) = some A.length)
    (h2 : findSub m2txt (c1ex (twoFs fr1 bf1 fr2 bf2) A B C D E F G S)
        = some (pre2 (twoFs fr1 bf1 fr2 bf2) A B).length)
    (h3 : childrenFind (c2ex (twoFs fr1 bf1 fr2 bf2) A B C D E F G S)
        = some ((pre3 (twoFs fr1 bf1 fr2 bf2) A B C G).length,
            (pre3 (twoFs fr1 bf1 fr2 bf2) A B C G).length + (bodyOf G).length))
    (h4 : sourcesFind (c3ex (twoFs fr1 bf1 fr2 bf2) A B C D E F G S)
        = some ((pre4 (twoFs fr1 bf1 fr2 bf2) A B C D G S).length,
            (pre4 (twoFs fr1 bf1 fr2 bf2) A B C D G S).length + (coreOf S).length))
    (h5 : findSub m1txt (mkManifest (a2 (twoFs fr1 bf1 fr2 bf2) A)
          (b2 (twoFs fr1 bf1 fr2 bf2) B) C D E F (g2 (twoFs fr1 bf1 fr2 bf2) G)
          (s2 (twoFs fr1 bf1 fr2 bf2) S))
        = some (a2 (twoFs fr1 bf1 fr2 bf2) A).length)
    (h6 : findSub m2txt (c1ex (twoFs gr1 gb1 gr2 gb2) (a2 (twoFs fr1 bf1 fr2 bf2) A)
          (b2 (twoFs fr1 bf1 fr2 bf2) B) C D E F (g2 (twoFs fr1 bf1 fr2 bf2) G)
          (s2 (twoFs fr1 bf1 fr2 bf2) S))
        = some (pre2 (twoFs gr1 gb1 gr2 gb2) (a2 (twoFs fr1 bf1 fr2 bf2) A)
            (b2 (twoFs fr1 bf1 fr2 bf2) B)).length)
    (h7 : childrenFind (c2ex (twoFs gr1 gb1 gr2 gb2) (a2 (twoFs fr1 bf1 fr2 bf2) A)
          (b2 (twoFs fr1 bf1 fr2 bf2) B) C D E F (g2 (twoFs fr1 bf1 fr2 bf2) G)
          (s2 (twoFs fr1 bf1 fr2 bf2) S))
        = some ((pre3 (twoFs gr1 gb1 gr2 gb2) (a2 (twoFs fr1 bf1 fr2 bf2) A)
              (b2 (twoFs fr1 bf1 fr2 bf2) B) C (g2 (twoFs fr1 bf1 fr2 bf2) G)).length,
            (pre3 (twoFs gr1 gb1 gr2 gb2) (a2 (twoFs fr1 bf1 fr2 bf2) A)
              (b2 (twoFs fr1 bf1 fr2 bf2) B) C (g2 (twoFs fr1 bf1 fr2 bf2) G)).length
              + (bodyOf (g2 (twoFs fr1 bf1 fr2 bf2) G)).length))
    (h8 : sourcesFind (c3ex (twoFs gr1 gb1 gr2 gb2) (a2 (twoFs fr1 bf1 fr2 bf2) A)
          (b2 (twoFs fr1 bf1 fr2 bf2) B) C D E F (g2 (twoFs fr1 bf1 fr2 bf2) G)
          (s2 (twoFs fr1 bf1 fr2 bf2) S))
        = some ((pre4 (twoFs gr1 gb1 gr2 gb2) (a2 (twoFs fr1 bf1 fr2 bf2) A)
              (b2 (twoFs fr1 bf1 fr2 bf2) B) C D (g2 (twoFs fr1 bf1 fr2 bf2) G)
              (s2 (twoFs fr1 bf1 fr2 bf2) S)).length,
            (pre4 (twoFs gr1 gb1 gr2 gb2) (a2 (twoFs fr1 bf1 fr2 bf2) A)
              (b2 (twoFs fr1 bf1 fr2 bf2) B) C D (g2 (twoFs fr1 bf1 fr2 bf2) G)
              (s2 (twoFs fr1 bf1 fr2 bf2) S)).length
              + (coreOf (s2 (twoFs fr1 bf1 fr2 bf2) S)).length)) :
    countSub nb1 (runSteps (twoFs gr1 gb1 gr2 gb2)
          (runSteps (twoFs fr1 bf1 fr2 bf2) (mkManifest A B C D E F G S)))
        = countSub nb1 (mkManifest A B C D E F G S) + 2
    ∧ countSub nb2 (runSteps (twoFs gr1 gb1 gr2 gb2)
          (runSteps (twoFs fr1 bf1 fr2 bf2) (mkManifest A B C D E F G S)))
        = countSub nb2 (mkManifest A B C D E F G S) + 2
    ∧ countSub nf1 (runSteps (twoFs gr1 gb1 gr2 gb2)
          (runSteps (twoFs fr1 bf1 fr2 bf2) (mkManifest A B C D E F G S)))
        = countSub nf1 (mkManifest A B C D E F G S) + 2
    ∧ countSub nf2 (runSteps (twoFs gr1 gb1 gr2 gb2)
          (runSteps (twoFs fr1 bf1 fr2 bf2) (mkManifest A B C D E F G S)))
        = countSub nf2 (mkManifest A B C D E F G S) + 2 := by
  have hrun1 := runSteps_explicit (twoFs fr1 bf1 fr2 bf2) A B C D E F G S h1 h2 h3 h4
  have hre := c4ex_as_manifest (twoFs fr1 bf1 fr2 bf2) A B C D E F G S
  have hrun2 := runSteps_explicit (twoFs gr1 gb1 gr2 gb2) (a2 (twoFs fr1 bf1 fr2 bf2) A)
    (b2 (twoFs fr1 bf1 fr2 bf2) B) C D E F (g2 (twoFs fr1 bf1 fr2 bf2) G)
    (s2 (twoFs fr1 bf1 fr2 bf2) S) h5 h6 h7 h8
  rw [hrun1, hre, hrun2]
  have hcnt : ∀ m : Text, needleOK m = true → insCount m = 1 →
      countSub m (c4ex (twoFs gr1 gb1 gr2 gb2) (a2 (twoFs fr1 bf1 fr2 bf2) A)
          (b2 (twoFs fr1 bf1 fr2 bf2) B) C D E F (g2 (twoFs fr1 bf1 fr2 bf2) G)
          (s2 (twoFs fr1 bf1 fr2 bf2) S))
        = countSub m (mkManifest A B C D E F G S) + 2 := by
    intro m hok hins
    rw [master_count m gr1 gb1 gr2 gb2 _ _ C D E F _ _ hok hgr1 hlgr1 hgb1 hlgb1
      hgr2 hlgr2 hgb2 hlgb2, hins]
    rw [← hre]
    rw [master_count m fr1 bf1 fr2 bf2 A B C D E F G S hok hfr1 hlfr1 hbf1 hlbf1
      hfr2 hlfr2 hbf2 hlbf2, hins]
  exact ⟨hcnt nb1 (by decide) (by decide), hcnt nb2 (by decide) (by decide),
    hcnt nf1 (by decide) (by decide), hcnt nf2 (by decide) (by decide)⟩

theorem claim_C3_witness :
    countSub nb1 (runSteps (twoFs (str "11AA") (str "22BB") (str "33CC") (str "44DD"))
          (runSteps whFs (mkManifest exA exB exC exD exE exF exG exS)))
        = countSub nb1 (mkManifest exA exB exC exD exE exF exG exS) + 2
    ∧ countSub nb2 (runSteps (twoFs (str "11AA") (str "22BB") (str "33CC") (str "44DD"))
          (runSteps whFs (mkManifest exA exB exC exD exE exF exG exS)))
        = countSub nb2 (mkManifest exA exB exC exD exE exF exG exS) + 2
    ∧ countSub nf1 (runSteps (twoFs (str "11AA") (str "22BB") (str "33CC") (str "44DD"))
          (runSteps whFs (mkManifest exA exB exC exD exE exF exG exS)))
        = countSub nf1 (mkManifest exA exB exC exD exE exF exG exS) + 2
    ∧ countSub nf2 (runSteps (twoFs (str "11AA") (str "22BB") (str "33CC") (str "44DD"))
          (runSteps whFs (mkManifest exA exB exC exD exE exF exG exS)))
        = countSub nf2 (mkManifest exA exB exC exD exE exF exG exS) + 2 :=
  claim_C3 (str "AB12") (str "CD34") (str "EF56") (str "A1B2")
    (str "11AA") (str "22BB") (str "33CC") (str "44DD")
    exA exB exC exD exE exF exG exS
    (by decide) (by decide) (by decide) (by decide) (by decide) (by decide)
    (by decide) (by decide) (by decide) (by decide) (by decide) (by decide)
    (by decide) (by decide) (by decide) (by decide)
    (by decide) (by decide) (by decide) (by decide)
    (by decide) (by decide) (by decide) (by decide)

/-! ## Claim C5: characterizing when the children regex matches

The scan childrenFindAux succeeds exactly when some suffix of the text
carries the opener "children = (" whose following text completes the
pattern (first ')' immediately followed by ';').  This is used to show
that the two marker splices cannot create a children match that the input
did not have. -/

def occB (n h : Text) (j : Nat) : Bool := n.isPrefixOf (h.drop j)

def openerTxt : Text := str "children = ("

def matchAtB (t : Text) : Bool :=
  openerTxt.isPrefixOf t && (childrenTail (t.drop 12)).isSome

theorem childrenFindAux_isSome_iff :
    ∀ (h : Text) (j : Nat),
      (childrenFindAux h j).isSome = true ↔ ∃ k, matchAtB (h.drop k) = true := by
  intro h
  induction h with
  | nil =>
    intro j
    constructor
    · intro hs
      exact absurd hs (by rw [childrenFindAux]; simp)
    · intro ⟨k, hk⟩
      exfalso
      unfold matchAtB at hk
      rw [List.drop_nil] at hk
      have hop : openerTxt.isPrefixOf ([] : Text) = false := rfl
      rw [hop] at hk
      simp at hk
  | cons c t ih =>
    intro j
    rw [childrenFindAux]
    rw [show (str "children = (") = openerTxt from rfl]
    by_cases hop : openerTxt.isPrefixOf (c :: t) = true
    · rw [hop]
      simp only [if_true]
      cases htail : childrenTail ((c :: t).drop 12) with
      | some wj =>
        constructor
        · intro _
          refine ⟨0, ?_⟩
          unfold matchAtB
          rw [List.drop_zero, hop, htail]
          rfl
        · intro _
          cases wj with
          | mk w jj => simp
      | none =>
        constructor
        · intro hs
          simp only at hs
          obtain ⟨k, hk⟩ := (ih (j + 1)).1 hs
          exact ⟨k + 1, by simpa using hk⟩
        · intro ⟨k, hk⟩
          simp only
          cases k with
          | zero =>
            exfalso
            unfold matchAtB at hk
            rw [List.drop_zero, hop, htail] at hk
            simp at hk
          | succ k2 =>
            refine (ih (j + 1)).2 ⟨k2, ?_⟩
            simpa using hk
    · simp only [Bool.not_eq_true] at hop
      rw [hop]
      constructor
      · intro hs
        have hs2 : (childrenFindAux t (j + 1)).isSome = true := hs
        obtain ⟨k, hk⟩ := (ih (j + 1)).1 hs2
        exact ⟨k + 1, by simpa using hk⟩
      · intro ⟨k, hk⟩
        show (childrenFindAux t (j + 1)).isSome = true
        cases k with
        | zero =>
          exfalso
          unfold matchAtB at hk
          rw [List.drop_zero, hop] at hk
          simp at hk
        | succ k2 =>
          refine (ih (j + 1)).2 ⟨k2, ?_⟩
          simpa using hk

-- small list helpers
theorem getLastD_mem (a : Text) (h : a ≠ []) (d : Char) : a.getLastD d ∈ a := by
  cases a with
  | nil => exact absurd rfl h
  | cons c t =>
    rw [List.getLastD_eq_getLast? , List.getLast?_eq_getLast (c :: t) (by simp)]
    simp only [Option.getD_some]
    exact List.getLast_mem _

theorem drop_append_rt (x z : Text) (m : Nat) : (x ++ z).drop (x.length + m) = z.drop m := by
  rw [← List.drop_drop, List.drop_left]

-- prefix transfer: needle fully inside the left part
theorem prefixOf_append_left (n a b : Text) (hle : n.length ≤ a.length) :
    n.isPrefixOf (a ++ b) = n.isPrefixOf a := by
  rcases hp : n.isPrefixOf a with _ | _
  · rcases hq : n.isPrefixOf (a ++ b) with _ | _
    · rfl
    · exfalso
      have hq2 : n <+: a ++ b := List.isPrefixOf_iff_prefix.1 hq
      have he : n = (a ++ b).take n.length := List.prefix_iff_eq_take.mp hq2
      rw [List.take_append_eq_append_take] at he
      have h0 : n.length - a.length = 0 := by omega
      rw [h0, List.take_zero, List.append_nil] at he
      have : n <+: a := he ▸ List.take_prefix n.length a
      rw [List.isPrefixOf_iff_prefix.2 this] at hp
      exact Bool.false_ne_true hp.symm
  · have hp2 : n <+: a := List.isPrefixOf_iff_prefix.1 hp
    rw [List.isPrefixOf_iff_prefix.2 (hp2.trans (List.prefix_append a b))]

-- crossing occurrence contains the right part's head
theorem mem_of_prefix_cross (n a : Text) (c : Char) (z : Text)
    (h : n.isPrefixOf (a ++ c :: z) = true) (hlt : a.length < n.length) : c ∈ n := by
  have h2 : n <+: a ++ c :: z := List.isPrefixOf_iff_prefix.1 h
  have he : n = (a ++ c :: z).take n.length := List.prefix_iff_eq_take.mp h2
  rw [List.take_append_eq_append_take] at he
  have h1 : ∃ m, n.length - a.length = m + 1 := ⟨n.length - a.length - 1, by omega⟩
  obtain ⟨m, hm⟩ := h1
  rw [hm] at he
  rw [List.take_succ_cons] at he
  rw [he]
  exact List.mem_append_right _ (List.mem_cons_self _ _)

-- left part short: left part is a prefix of the needle
theorem prefix_of_prefix_short (n a b : Text)
    (h : n.isPrefixOf (a ++ b) = true) (hle : a.length ≤ n.length) : a <+: n := by
  have h2 : n <+: a ++ b := List.isPrefixOf_iff_prefix.1 h
  have he : n = (a ++ b).take n.length := List.prefix_iff_eq_take.mp h2
  rw [List.take_append_eq_append_take, List.take_of_length_le hle] at he
  exact ⟨b.take (n.length - a.length), he.symm⟩

-- needle fully covered: needle chars come from the left part
theorem subset_of_prefix_long (n a b : Text)
    (h : n.isPrefixOf (a ++ b) = true) (hge : n.length ≤ a.length) :
    ∀ c ∈ n, c ∈ a := by
  rw [prefixOf_append_left n a b hge] at h
  intro c hc
  exact (List.isPrefixOf_iff_prefix.1 h).subset hc

-- single-char occurrence checks across appends
theorem occB_append_left (e : Text) (j : Nat) (W : Text) (hj : j < W.length) :
    occB (str ")") (W ++ e) j = occB (str ")") W j := by
  unfold occB
  rw [List.drop_append_of_le_length (by omega)]
  cases hW : W.drop j with
  | nil =>
    exfalso
    have := List.length_drop j W
    rw [hW] at this
    simp at this
    omega
  | cons c u =>
    show (str ")").isPrefixOf (c :: (u ++ e)) = (str ")").isPrefixOf (c :: u)
    show (List.isPrefixOf [')'] (c :: (u ++ e))) = (List.isPrefixOf [')'] (c :: u))
    simp [List.isPrefixOf]

theorem findSubAux_none_iff (n : Text) :
    ∀ (h : Text) (i : Nat), findSubAux n h i = none ↔ ∀ j, occB n h j = false := by
  intro h
  induction h with
  | nil =>
    intro i
    unfold findSubAux
    by_cases hp : n.isPrefixOf ([] : Text) = true
    · rw [hp]
      simp only [if_true]
      constructor
      · intro hc; exact absurd hc (by simp)
      · intro hall
        exfalso
        have := hall 0
        unfold occB at this
        rw [List.drop_nil, hp] at this
        simp at this
    · simp only [Bool.not_eq_true] at hp
      rw [hp]
      simp only [Bool.false_eq_true, if_false]
      constructor
      · intro _ j
        unfold occB
        rw [List.drop_nil, hp]
      · intro _; trivial
  | cons c t ih =>
    intro i
    unfold findSubAux
    by_cases hp : n.isPrefixOf (c :: t) = true
    · rw [hp]
      simp only [if_true]
      constructor
      · intro hc; exact absurd hc (by simp)
      · intro hall
        exfalso
        have := hall 0
        unfold occB at this
        rw [List.drop_zero, hp] at this
        simp at this
    · simp only [Bool.not_eq_true] at hp
      rw [hp]
      simp only [Bool.false_eq_true, if_false]
      rw [ih (i + 1)]
      constructor
      · intro hall j
        cases j with
        | zero =>
          unfold occB
          rw [List.drop_zero]
          exact hp
        | succ j2 => exact hall j2
      · intro hall j
        exact hall (j + 1)

theorem findSubAux_some_spec (n : Text) :
    ∀ (h : Text) (i r : Nat), findSubAux n h i = some r →
      i ≤ r ∧ occB n h (r - i) = true ∧ ∀ j < r - i, occB n h j = false := by
  intro h
  induction h with
  | nil =>
    intro i r he
    unfold findSubAux at he
    by_cases hp : n.isPrefixOf ([] : Text) = true
    · rw [hp] at he
      simp only [if_true, Option.some.injEq] at he
      subst he
      refine ⟨Nat.le_refl _, ?_, ?_⟩
      · unfold occB
        rw [Nat.sub_self, List.drop_nil]
        exact hp
      · intro j hj; omega
    · simp only [Bool.not_eq_true] at hp
      rw [hp] at he
      simp at he
  | cons c t ih =>
    intro i r he
    unfold findSubAux at he
    by_cases hp : n.isPrefixOf (c :: t) = true
    · rw [hp] at he
      simp only [if_true, Option.some.injEq] at he
      subst he
      refine ⟨Nat.le_refl _, ?_, ?_⟩
      · unfold occB
        rw [Nat.sub_self, List.drop_zero]
        exact hp
      · intro j hj; omega
    · simp only [Bool.not_eq_true] at hp
      rw [hp] at he
      simp only [Bool.false_eq_true, if_false] at he
      obtain ⟨hle, hocc, hmin⟩ := ih (i + 1) r he
      refine ⟨by omega, ?_, ?_⟩
      · have hr : r - i = (r - (i + 1)) + 1 := by omega
        rw [hr]
        exact hocc
      · intro j hj
        cases j with
        | zero =>
          unfold occB
          rw [List.drop_zero]
          exact hp
        | succ j2 =>
          exact hmin j2 (by omega)

theorem findSub_eq_some_of (n h : Text) (j : Nat)
    (hocc : occB n h j = true) (hmin : ∀ k < j, occB n h k = false) :
    findSub n h = some j := by
  cases he : findSub n h with
  | none =>
    exfalso
    have := (findSubAux_none_iff n h 0).1 he j
    rw [hocc] at this
    simp at this
  | some r =>
    obtain ⟨_, hocc2, hmin2⟩ := findSubAux_some_spec n h 0 r he
    rw [Nat.sub_zero] at hocc2 hmin2
    have hrj : r = j := by
      rcases Nat.lt_trichotomy r j with hlt | heq | hgt
      · have := hmin r hlt
        rw [hocc2] at this
        simp at this
      · exact heq
      · have := hmin2 j hgt
        rw [hocc] at this
        simp at this
    rw [hrj]

-- witness description for childrenTail success
def closeWit (rest : Text) (j : Nat) : Prop :=
  occB (str ")") rest j = true ∧ (∀ k < j, occB (str ")") rest k = false) ∧
    (rest.drop (j + 1)).take 1 = str ";"

theorem childrenTail_isSome_iff (rest : Text) :
    (childrenTail rest).isSome = true ↔ ∃ j, closeWit rest j := by
  unfold childrenTail
  cases he : findSub (str ")") rest with
  | none =>
    simp only [Option.isSome_none]
    constructor
    · intro hc; simp at hc
    · intro ⟨j, hocc, _, _⟩
      have := (findSubAux_none_iff _ rest 0).1 he j
      rw [hocc] at this
      simp at this
  | some j =>
    show (if (rest.drop (j + 1)).take 1 = str ";" then
        some ((rest.takeWhile isPySpace).length, j) else none).isSome = true
      ↔ ∃ k, closeWit rest k
    by_cases hsemi : (rest.drop (j + 1)).take 1 = str ";"
    · rw [if_pos hsemi]
      simp only [Option.isSome_some, true_iff]
      obtain ⟨_, hocc, hmin⟩ := findSubAux_some_spec _ rest 0 j he
      rw [Nat.sub_zero] at hocc hmin
      exact ⟨j, hocc, hmin, hsemi⟩
    · rw [if_neg hsemi]
      simp only [Option.isSome_none]
      constructor
      · intro hc; simp at hc
      · intro ⟨j2, hocc, hmin, hsemi2⟩
        have hj : findSub (str ")") rest = some j2 := findSub_eq_some_of _ _ _ hocc hmin
        rw [he] at hj
        have : j = j2 := by
          have := Option.some.inj hj
          omega
        subst this
        exact absurd hsemi2 hsemi

-- a take-1 helper
theorem take_one_append (u v : Text) (hu : u ≠ []) : (u ++ v).take 1 = u.take 1 := by
  cases u with
  | nil => exact absurd rfl hu
  | cons c t => simp

/-- Inserting a block INS (no ')' inside, nonempty, not starting with ';')
between W and Y cannot create or destroy the "first ')' then ';'" shape
needed by the children regex tail, in the creation direction. -/
theorem childrenTail_insert (W INS Y : Text)
    (hcl : ')' ∉ INS) (hne : INS ≠ []) (hhd : INS.headD ';' ≠ ';')
    (hM : (childrenTail (W ++ (INS ++ Y))).isSome = true) :
    (childrenTail (W ++ Y)).isSome = true := by
  rw [childrenTail_isSome_iff] at hM ⊢
  obtain ⟨j, hocc, hmin, hsemi⟩ := hM
  rcases Nat.lt_or_ge j W.length with hj1 | hj1
  · -- the closing ')' lies inside W
    refine ⟨j, ?_, ?_, ?_⟩
    · rw [occB_append_left Y j W hj1, ← occB_append_left (INS ++ Y) j W hj1]
      exact hocc
    · intro k hk
      rw [occB_append_left Y k W (by omega), ← occB_append_left (INS ++ Y) k W (by omega)]
      exact hmin k hk
    · rcases Nat.lt_or_ge (j + 1) W.length with hj2 | hj2
      · have hd1 : (W ++ (INS ++ Y)).drop (j + 1) = W.drop (j + 1) ++ (INS ++ Y) :=
          List.drop_append_of_le_length (by omega)
        have hd2 : (W ++ Y).drop (j + 1) = W.drop (j + 1) ++ Y :=
          List.drop_append_of_le_length (by omega)
        have hWne : W.drop (j + 1) ≠ [] := by
          intro hc
          have := List.length_drop (j + 1) W
          rw [hc] at this
          simp at this
          omega
        rw [hd1, take_one_append _ _ hWne] at hsemi
        rw [hd2, take_one_append _ _ hWne]
        exact hsemi
      · -- the ')' is the last character of W: the next char is the head of INS
        exfalso
        have hj3 : j + 1 = W.length := by omega
        have hd1 : (W ++ (INS ++ Y)).drop (j + 1) = INS ++ Y := by
          rw [show j + 1 = W.length + 0 by omega, drop_append_rt, List.drop_zero]
        rw [hd1] at hsemi
        cases hI : INS with
        | nil => exact hne hI
        | cons c t =>
          subst hI
          rw [show (c :: t) ++ Y = c :: (t ++ Y) from rfl] at hsemi
          rw [List.take_succ_cons, List.take_zero] at hsemi
          have : c = ';' := by
            have := List.cons.inj hsemi
            exact this.1
          exact hhd (by rw [List.headD_cons, this])
  · rcases Nat.lt_or_ge j (W.length + INS.length) with hj2 | hj2
    · -- impossible: the ')' would lie inside INS
      exfalso
      have hm : j = W.length + (j - W.length) := by omega
      unfold occB at hocc
      rw [hm, drop_append_rt, List.drop_append_of_le_length (by omega)] at hocc
      have hIne : INS.drop (j - W.length) ≠ [] := by
        intro hc
        have := List.length_drop (j - W.length) INS
        rw [hc] at this
        simp at this
        omega
      cases hI : INS.drop (j - W.length) with
      | nil => exact hIne hI
      | cons c u =>
        rw [hI, show (c :: u) ++ Y = c :: (u ++ Y) from rfl] at hocc
        have hc : c = ')' := by
          have : List.isPrefixOf [')'] (c :: (u ++ Y)) = true := hocc
          simp [List.isPrefixOf] at this
          exact this.symm
        apply hcl
        rw [← hc]
        exact (List.drop_sublist (j - W.length) INS).subset (hI ▸ List.mem_cons_self c u)
    · -- the ')' lies inside Y
      have hassoc : W ++ (INS ++ Y) = (W ++ INS) ++ Y := (List.append_assoc W INS Y).symm
      have hlen : (W ++ INS).length = W.length + INS.length := List.length_append W INS
      refine ⟨W.length + (j - W.length - INS.length), ?_, ?_, ?_⟩
      · unfold occB at hocc ⊢
        rw [drop_append_rt]
        rw [hassoc, show j = (W ++ INS).length + (j - W.length - INS.length) by omega,
          drop_append_rt] at hocc
        exact hocc
      · intro k hk
        rcases Nat.lt_or_ge k W.length with hk1 | hk1
        · rw [occB_append_left Y k W hk1, ← occB_append_left (INS ++ Y) k W hk1]
          exact hmin k (by omega)
        · unfold occB
          rw [show k = W.length + (k - W.length) by omega, drop_append_rt]
          have := hmin ((W ++ INS).length + (k - W.length)) (by omega)
          unfold occB at this
          rw [hassoc, drop_append_rt] at this
          exact this
      · rw [show W.length + (j - W.length - INS.length) + 1
            = W.length + (j - W.length - INS.length + 1) by omega, drop_append_rt]
        rw [hassoc, show j + 1 = (W ++ INS).length + (j - W.length - INS.length + 1) by omega,
          drop_append_rt] at hsemi
        exact hsemi

theorem opener_len : openerTxt.length = 12 := by decide
theorem tab_not_in_opener : ('\t' ∈ openerTxt) = False := by simp [openerTxt, str]
theorem paren_in_opener : '(' ∈ openerTxt := by decide

/-- Splicing a block INS (containing no parenthesis, nonempty, tab at both
ends) into a text with no children-regex match cannot create one. -/
theorem matchAt_insert (X Y INS : Text)
    (hop : '(' ∉ INS) (hcl : ')' ∉ INS) (hne : INS ≠ [])
    (hhd : INS.headD ' ' = '\t') (hlast : INS.getLastD ' ' = '\t')
    (hfree : ∀ k, matchAtB ((X ++ Y).drop k) = false) :
    ∀ k, matchAtB ((X ++ (INS ++ Y)).drop k) = false := by
  cases hI : INS with
  | nil => exact absurd hI hne
  | cons c0 t0 =>
  subst hI
  have hc0 : c0 = '\t' := hhd
  intro k
  by_contra hcon
  rw [Bool.not_eq_false] at hcon
  unfold matchAtB at hcon
  rw [Bool.and_eq_true] at hcon
  obtain ⟨hpre, htail⟩ := hcon
  rcases Nat.lt_or_ge k X.length with hk1 | hk1
  · rcases le_or_lt (k + 12) X.length with hk2 | hk2
    · -- whole opener inside X: the match transfers back to X ++ Y
      have hd1 : (X ++ ((c0 :: t0) ++ Y)).drop k = X.drop k ++ ((c0 :: t0) ++ Y) :=
        List.drop_append_of_le_length (by omega)
      have hd2 : (X ++ ((c0 :: t0) ++ Y)).drop (k + 12) = X.drop (k + 12) ++ ((c0 :: t0) ++ Y) :=
        List.drop_append_of_le_length (by omega)
      have hlen : (X.drop k).length = X.length - k := List.length_drop k X
      rw [hd1, prefixOf_append_left _ _ _ (by rw [opener_len]; omega)] at hpre
      rw [List.drop_drop, hd2] at htail
      have htail2 := childrenTail_insert (X.drop (k + 12)) (c0 :: t0) Y
        hcl (by simp) (by simp [hc0]) htail
      have hy := hfree k
      unfold matchAtB at hy
      have hd3 : (X ++ Y).drop k = X.drop k ++ Y :=
        List.drop_append_of_le_length (by omega)
      have hd4 : (X ++ Y).drop (k + 12) = X.drop (k + 12) ++ Y :=
        List.drop_append_of_le_length (by omega)
      rw [List.drop_drop, hd3, hd4,
        prefixOf_append_left _ _ _ (by rw [opener_len]; omega), hpre, htail2] at hy
      simp at hy
    · -- opener straddles the X | INS junction: it would contain the tab
      have hd1 : (X ++ ((c0 :: t0) ++ Y)).drop k = X.drop k ++ ((c0 :: t0) ++ Y) :=
        List.drop_append_of_le_length (by omega)
      rw [hd1, show (c0 :: t0) ++ Y = c0 :: (t0 ++ Y) from rfl] at hpre
      have hmem := mem_of_prefix_cross openerTxt (X.drop k) c0 (t0 ++ Y) hpre
        (by rw [opener_len, List.length_drop]; omega)
      rw [hc0] at hmem
      exact tab_not_in_opener ▸ hmem
  · rcases Nat.lt_or_ge k (X.length + (c0 :: t0).length) with hk2 | hk2
    · -- opener starts inside INS
      have hd1 : (X ++ ((c0 :: t0) ++ Y)).drop k = (c0 :: t0).drop (k - X.length) ++ Y := by
        conv_lhs => rw [show k = X.length + (k - X.length) by omega]
        rw [drop_append_rt, List.drop_append_of_le_length (by omega)]
      rw [hd1] at hpre
      have hIne : (c0 :: t0).drop (k - X.length) ≠ [] := by
        intro hcnil
        have := List.length_drop (k - X.length) (c0 :: t0)
        rw [hcnil] at this
        simp only [List.length_nil] at this
        omega
      rcases le_or_lt 12 ((c0 :: t0).drop (k - X.length)).length with hl | hl
      · have hsub := subset_of_prefix_long openerTxt _ Y hpre (by rw [opener_len]; omega)
        have : '(' ∈ (c0 :: t0) :=
          (List.drop_sublist (k - X.length) (c0 :: t0)).subset (hsub '(' paren_in_opener)
        exact hop this
      · have hpfx := prefix_of_prefix_short openerTxt _ Y hpre (by rw [opener_len]; omega)
        have hmem : ((c0 :: t0).drop (k - X.length)).getLastD ' ' ∈ openerTxt :=
          hpfx.subset (getLastD_mem _ hIne ' ')
        rw [getLastD_suffix _ _ (List.drop_suffix _ _) hIne ' ', hlast] at hmem
        exact tab_not_in_opener ▸ hmem
    · -- opener entirely inside Y: the match already existed in X ++ Y
      have hd1 : (X ++ ((c0 :: t0) ++ Y)).drop k = Y.drop (k - X.length - (c0 :: t0).length) := by
        conv_lhs =>
          rw [← List.append_assoc,
            show k = (X ++ (c0 :: t0)).length + (k - X.length - (c0 :: t0).length) from by
              rw [List.length_append]; omega]
        rw [drop_append_rt]
      have hy := hfree (X.length + (k - X.length - (c0 :: t0).length))
      unfold matchAtB at hy
      rw [drop_append_rt] at hy
      rw [hd1] at hpre htail
      rw [List.drop_drop] at htail hy
      rw [hpre, htail] at hy
      simp at hy

theorem childrenFind_eq_none_iff (h : Text) :
    childrenFind h = none ↔ ∀ k, matchAtB (h.drop k) = false := by
  unfold childrenFind
  constructor
  · intro he k
    by_contra hc
    rw [Bool.not_eq_false] at hc
    have := (childrenFindAux_isSome_iff h 0).2 ⟨k, hc⟩
    rw [he] at this
    simp at this
  · intro hall
    cases he : childrenFindAux h 0 with
    | none => rfl
    | some v =>
      exfalso
      have hs : (childrenFindAux h 0).isSome = true := by rw [he]; rfl
      obtain ⟨k, hk⟩ := (childrenFindAux_isSome_iff h 0).1 hs
      rw [hall k] at hk
      simp at hk

/-- Splicing a tab-delimited parenthesis-free block anywhere into a text
with no children-regex match leaves it without a match. -/
theorem childrenFind_none_splice (content INS : Text) (i : Nat)
    (hop : '(' ∉ INS) (hcl : ')' ∉ INS) (hne : INS ≠ [])
    (hhd : INS.headD ' ' = '\t') (hlast : INS.getLastD ' ' = '\t')
    (hnone : childrenFind content = none) :
    childrenFind (content.take i ++ (INS ++ content.drop i)) = none := by
  rw [childrenFind_eq_none_iff] at hnone ⊢
  refine matchAt_insert (content.take i) (content.drop i) INS hop hcl hne hhd hlast ?_
  intro k
  rw [List.take_append_drop]
  exact hnone k

-- facts about the inserted blocks
theorem hex_not_paren_l (id : Text) (hid : ∀ c ∈ id, isHexUpper c = true) : '(' ∉ id := by
  intro hmem
  exact absurd (hid '(' hmem) (by decide)

theorem hex_not_paren_r (id : Text) (hid : ∀ c ∈ id, isHexUpper c = true) : ')' ∉ id := by
  intro hmem
  exact absurd (hid ')' hmem) (by decide)

theorem headD_append_left (u v : Text) (d : Char) (hu : u ≠ []) :
    (u ++ v).headD d = u.headD d := by
  cases u with
  | nil => exact absurd rfl hu
  | cons c t => rfl

theorem bfIns_shape (fr1 bf1 fr2 bf2 : Text)
    (hfr1 : ∀ c ∈ fr1, isHexUpper c = true) (hbf1 : ∀ c ∈ bf1, isHexUpper c = true)
    (hfr2 : ∀ c ∈ fr2, isHexUpper c = true) (hbf2 : ∀ c ∈ bf2, isHexUpper c = true) :
    let INS := bfBlock (twoFs fr1 bf1 fr2 bf2) ++ nlTT
    '(' ∉ INS ∧ ')' ∉ INS ∧ INS ≠ [] ∧ INS.headD ' ' = '\t' ∧ INS.getLastD ' ' = '\t' := by
  intro INS
  have hblock : bfBlock (twoFs fr1 bf1 fr2 bf2)
      = (ttL ++ (bf1 ++ (bfL1a ++ (fr1 ++ bfL1b)))) ++ str "\n"
        ++ (ttL ++ (bf2 ++ (bfL2a ++ (fr2 ++ bfL2b)))) := by
    show joinNL ((twoFs fr1 bf1 fr2 bf2).map buildFileEntry) = _
    rw [show (twoFs fr1 bf1 fr2 bf2).map buildFileEntry
        = [buildFileEntry (str "NewsArticle.swift", fr1, bf1),
           buildFileEntry (str "NewsArticle+CoreDataProperties.swift", fr2, bf2)] from rfl,
      joinNL_two, buildFileEntry_eq1, buildFileEntry_eq2]
  refine ⟨?_, ?_, ?_, ?_, ?_⟩
  · show '(' ∉ bfBlock (twoFs fr1 bf1 fr2 bf2) ++ nlTT
    rw [hblock]
    intro hmem
    simp only [List.mem_append] at hmem
    rcases hmem with ((⟨h | h⟩ | h) | h) | h
    · revert h; decide
    · rcases h with h | h
      · exact hex_not_paren_l bf1 hbf1 h
      · rcases h with h | h
        · revert h; decide
        · rcases h with h | h
          · exact hex_not_paren_l fr1 hfr1 h
          · revert h; decide
    · revert h; decide
    · rcases h with h | h
      · revert h; decide
      · rcases h with h | h
        · exact hex_not_paren_l bf2 hbf2 h
        · rcases h with h | h
          · revert h; decide
          · rcases h with h | h
            · exact hex_not_paren_l fr2 hfr2 h
            · revert h; decide
    · revert h; decide
  · show ')' ∉ bfBlock (twoFs fr1 bf1 fr2 bf2) ++ nlTT
    rw [hblock]
    intro hmem
    simp only [List.mem_append] at hmem
    rcases hmem with ((⟨h | h⟩ | h) | h) | h
    · revert h; decide
    · rcases h with h | h
      · exact hex_not_paren_r bf1 hbf1 h
      · rcases h with h | h
        · revert h; decide
        · rcases h with h | h
          · exact hex_not_paren_r fr1 hfr1 h
          · revert h; decide
    · revert h; decide
    · rcases h with h | h
      · revert h; decide
      · rcases h with h | h
        · exact hex_not_paren_r bf2 hbf2 h
        · rcases h with h | h
          · revert h; decide
          · rcases h with h | h
            · exact hex_not_paren_r fr2 hfr2 h
            · revert h; decide
    · revert h; decide
  · show bfBlock (twoFs fr1 bf1 fr2 bf2) ++ nlTT ≠ []
    simp [nlTT, str]
  · show (bfBlock (twoFs fr1 bf1 fr2 bf2) ++ nlTT).headD ' ' = '\t'
    rw [hblock]
    rw [headD_append_left _ _ _ (by simp [ttL, str]),
      headD_append_left _ _ _ (by simp [ttL, str]),
      headD_append_left _ _ _ (by simp [ttL, str])]
    rfl
  · show (bfBlock (twoFs fr1 bf1 fr2 bf2) ++ nlTT).getLastD ' ' = '\t'
    rw [← getLastD_suffix nlTT _ (List.suffix_append _ _) (by simp [nlTT, str]) ' ']
    rfl

theorem frIns_shape (fr1 bf1 fr2 bf2 : Text)
    (hfr1 : ∀ c ∈ fr1, isHexUpper c = true) (hfr2 : ∀ c ∈ fr2, isHexUpper c = true) :
    let INS := frBlock (twoFs fr1 bf1 fr2 bf2) ++ nlTT
    '(' ∉ INS ∧ ')' ∉ INS ∧ INS ≠ [] ∧ INS.headD ' ' = '\t' ∧ INS.getLastD ' ' = '\t' := by
  intro INS
  have hblock : frBlock (twoFs fr1 bf1 fr2 bf2)
      = (ttL ++ (fr1 ++ frL1)) ++ str "\n" ++ (ttL ++ (fr2 ++ frL2)) := by
    show joinNL ((twoFs fr1 bf1 fr2 bf2).map fileRefEntry) = _
    rw [show (twoFs fr1 bf1 fr2 bf2).map fileRefEntry
        = [fileRefEntry (str "NewsArticle.swift", fr1, bf1),
           fileRefEntry (str "NewsArticle+CoreDataProperties.swift", fr2, bf2)] from rfl,
      joinNL_two, fileRefEntry_eq1, fileRefEntry_eq2]
  refine ⟨?_, ?_, ?_, ?_, ?_⟩
  · show '(' ∉ frBlock (twoFs fr1 bf1 fr2 bf2) ++ nlTT
    rw [hblock]
    intro hmem
    simp only [List.mem_append] at hmem
    rcases hmem with ((⟨h | h⟩ | h) | h) | h
    · revert h; decide
    · rcases h with h | h
      · exact hex_not_paren_l fr1 hfr1 h
      · revert h; decide
    · revert h; decide
    · rcases h with h | h
      · revert h; decide
      · rcases h with h | h
        · exact hex_not_paren_l fr2 hfr2 h
        · revert h; decide
    · revert h; decide
  · show ')' ∉ frBlock (twoFs fr1 bf1 fr2 bf2) ++ nlTT
    rw [hblock]
    intro hmem
    simp only [List.mem_append] at hmem
    rcases hmem with ((⟨h | h⟩ | h) | h) | h
    · revert h; decide
    · rcases h with h | h
      · exact hex_not_paren_r fr1 hfr1 h
      · revert h; decide
    · revert h; decide
    · rcases h with h | h
      · revert h; decide
      · rcases h with h | h
        · exact hex_not_paren_r fr2 hfr2 h
        · revert h; decide
    · revert h; decide
  · show frBlock (twoFs fr1 bf1 fr2 bf2) ++ nlTT ≠ []
    simp [nlTT, str]
  · show (frBlock (twoFs fr1 bf1 fr2 bf2) ++ nlTT).headD ' ' = '\t'
    rw [hblock]
    rw [headD_append_left _ _ _ (by simp [ttL, str]),
      headD_append_left _ _ _ (by simp [ttL, str]),
      headD_append_left _ _ _ (by simp [ttL, str])]
    rfl
  · show (frBlock (twoFs fr1 bf1 fr2 bf2) ++ nlTT).getLastD ' ' = '\t'
    rw [← getLastD_suffix nlTT _ (List.suffix_append _ _) (by simp [nlTT, str]) ' ']
    rfl

/-- No children match is created by the PBXBuildFile splice. -/
theorem childrenFind_none_insertBuildFiles (fr1 bf1 fr2 bf2 : Text) (content : Text)
    (hfr1 : ∀ c ∈ fr1, isHexUpper c = true) (hbf1 : ∀ c ∈ bf1, isHexUpper c = true)
    (hfr2 : ∀ c ∈ fr2, isHexUpper c = true) (hbf2 : ∀ c ∈ bf2, isHexUpper c = true)
    (hnone : childrenFind content = none) :
    childrenFind (insertBuildFiles (twoFs fr1 bf1 fr2 bf2) content) = none := by
  unfold insertBuildFiles
  cases hfind : findSub (str "/* End PBXBuildFile section */") content with
  | none => exact hnone
  | some i =>
    show childrenFind (content.take i ++ joinNL ((twoFs fr1 bf1 fr2 bf2).map buildFileEntry)
      ++ str "\n\t\t" ++ content.drop i) = none
    obtain ⟨hop, hcl, hne, hhd, hlast⟩ := bfIns_shape fr1 bf1 fr2 bf2 hfr1 hbf1 hfr2 hbf2
    have heq : content.take i ++ joinNL ((twoFs fr1 bf1 fr2 bf2).map buildFileEntry)
          ++ str "\n\t\t" ++ content.drop i
        = content.take i ++ ((bfBlock (twoFs fr1 bf1 fr2 bf2) ++ nlTT) ++ content.drop i) := by
      show content.take i ++ bfBlock (twoFs fr1 bf1 fr2 bf2) ++ nlTT ++ content.drop i = _
      simp only [List.append_assoc]
    rw [heq]
    exact childrenFind_none_splice content _ i hop hcl hne hhd hlast hnone

/-- No children match is created by the PBXFileReference splice. -/
theorem childrenFind_none_insertFileRefs (fr1 bf1 fr2 bf2 : Text) (content : Text)
    (hfr1 : ∀ c ∈ fr1, isHexUpper c = true) (hfr2 : ∀ c ∈ fr2, isHexUpper c = true)
    (hnone : childrenFind content = none) :
    childrenFind (insertFileRefs (twoFs fr1 bf1 fr2 bf2) content) = none := by
  unfold insertFileRefs
  cases hfind : findSub (str "/* End PBXFileReference section */") content with
  | none => exact hnone
  | some i =>
    show childrenFind (content.take i ++ joinNL ((twoFs fr1 bf1 fr2 bf2).map fileRefEntry)
      ++ str "\n\t\t" ++ content.drop i) = none
    obtain ⟨hop, hcl, hne, hhd, hlast⟩ := frIns_shape fr1 bf1 fr2 bf2 hfr1 hfr2
    have heq : content.take i ++ joinNL ((twoFs fr1 bf1 fr2 bf2).map fileRefEntry)
          ++ str "\n\t\t" ++ content.drop i
        = content.take i ++ ((frBlock (twoFs fr1 bf1 fr2 bf2) ++ nlTT) ++ content.drop i) := by
      show content.take i ++ frBlock (twoFs fr1 bf1 fr2 bf2) ++ nlTT ++ content.drop i = _
      simp only [List.append_assoc]
    rw [heq]
    exact childrenFind_none_splice content _ i hop hcl hne hhd hlast hnone

/-- Claim C5: for every input text containing no children = ( ... ); block
(the regex scan finds no match), the group-insertion step of the pipeline is
a no-op on the buffer it actually receives (the two marker splices cannot
create a children match), no error is raised, and the remaining pipeline
steps still complete: the sources insertion is still attempted on the
unchanged buffer, and the final buffer and the confirmation lines are still
produced. -/
theorem claim_C5 (supply : List Nat) (content : Text)
    (hnone : childrenFind content = none) :
    insertChildren (assignIds files_to_add supply).1
        (insertFileRefs (assignIds files_to_add supply).1
          (insertBuildFiles (assignIds files_to_add supply).1 content))
      = insertFileRefs (assignIds files_to_add supply).1
          (insertBuildFiles (assignIds files_to_add supply).1 content)
    ∧ (add_newsarticle_files supply content).1
      = insertSources (assignIds files_to_add supply).1
          (insertFileRefs (assignIds files_to_add supply).1
            (insertBuildFiles (assignIds files_to_add supply).1 content))
    ∧ (add_newsarticle_files supply content).2 = printedLines := by
  have hfs := assignIds_twoFs supply
  have hhexA := generate_uuid_hex (supply.headD 0)
  have hhexB := generate_uuid_hex (supply.tail.headD 0)
  have hhexC := generate_uuid_hex (supply.tail.tail.headD 0)
  have hhexD := generate_uuid_hex (supply.tail.tail.tail.headD 0)
  have h2 := childrenFind_none_insertBuildFiles _ _ _ _ content hhexA hhexB hhexC hhexD hnone
  have h3 := childrenFind_none_insertFileRefs (generate_uuid (supply.headD 0))
    (generate_uuid (supply.tail.headD 0)) (generate_uuid (supply.tail.tail.headD 0))
    (generate_uuid (supply.tail.tail.tail.headD 0))
    (insertBuildFiles (twoFs (generate_uuid (supply.headD 0))
      (generate_uuid (supply.tail.headD 0)) (generate_uuid (supply.tail.tail.headD 0))
      (generate_uuid (supply.tail.tail.tail.headD 0))) content) hhexA hhexC h2
  refine ⟨?_, ?_, rfl⟩
  · rw [hfs]
    unfold insertChildren
    rw [h3]
  · have hrun : (add_newsarticle_files supply content).1
        = runSteps (assignIds files_to_add supply).1 content := rfl
    rw [hrun, hfs]
    unfold runSteps
    unfold insertChildren
    rw [h3]

theorem claim_C5_witness :
    childrenFind (str "x") = none
    ∧ (insertChildren (assignIds files_to_add [0, 1, 2, 3]).1
          (insertFileRefs (assignIds files_to_add [0, 1, 2, 3]).1
            (insertBuildFiles (assignIds files_to_add [0, 1, 2, 3]).1 (str "x")))
        = insertFileRefs (assignIds files_to_add [0, 1, 2, 3]).1
            (insertBuildFiles (assignIds files_to_add [0, 1, 2, 3]).1 (str "x"))
      ∧ (add_newsarticle_files [0, 1, 2, 3] (str "x")).1
        = insertSources (assignIds files_to_add [0, 1, 2, 3]).1
            (insertFileRefs (assignIds files_to_add [0, 1, 2, 3]).1
              (insertBuildFiles (assignIds files_to_add [0, 1, 2, 3]).1 (str "x")))
      ∧ (add_newsarticle_files [0, 1, 2, 3] (str "x")).2 = printedLines) :=
  ⟨by decide, claim_C5 [0, 1, 2, 3] (str "x") (by decide)⟩
